import Mathlib

/-!
# Verification of the Sintraopo affiliate-dashboard repository

Shallow embedding of the two near-duplicate Streamlit applications
`src/App.py` (variant 1) and `src/app.py` (variant 2).

A pandas DataFrame is modelled as a `Table`: a list of column names plus a
list of rows, each row an association list from column name to `Cell`.
A cell is a string, a rational number (modelling a Python float read from
CSV) or `na` (modelling pandas `NaN` / a missing value).  Fallible pandas
operations (`KeyError` on a missing column, `ValueError` from
`astype(float)`, a CSV parse failure, `ZeroDivisionError`) are modelled
with `Except PdErr`.
-/

/-- A single DataFrame cell: a string, a float (as an exact rational), or
pandas `NaN` (a missing value). -/
inductive Cell where
  | str (s : String)
  | num (q : Rat)
  | na
deriving DecidableEq

/-- A row of a DataFrame: an association list from column name to cell. -/
abbrev Row := List (String × Cell)

/-- A pandas DataFrame: the column names and the rows. -/
structure Table where
  cols : List String
  rows : List Row
deriving DecidableEq

/-- Exceptions raised by the modelled pandas / Python operations. -/
inductive PdErr where
  | keyError (c : String)
  | valueError
  | parseError
  | reError
  | zeroDiv
deriving DecidableEq

/-- Reading a cell from a row (`df['C']` at one row); a column name absent
from the row reads as `NaN`. -/
def rowGet : Row → String → Cell
  | [], _ => Cell.na
  | (k, v) :: rest, c => if k = c then v else rowGet rest c

/-- Removes every binding of a column name from a row. -/
def removeKey : Row → String → Row
  | [], _ => []
  | (k, v) :: r, c => if k = c then removeKey r c else (k, v) :: removeKey r c

/-- Writing a cell of a row (column assignment, at one row). -/
def rowSet (r : Row) (c : String) (v : Cell) : Row :=
  (c, v) :: removeKey r c

/-- Column assignment `df[c] = <rowwise expression>`: overwrites the column
when present, appends it otherwise. -/
def setColByRow (t : Table) (c : String) (f : Row → Cell) : Table :=
  { cols := if c ∈ t.cols then t.cols else t.cols ++ [c],
    rows := t.rows.map (fun r => rowSet r c (f r)) }

/-- Column assignment `df[c] = df[c].map f` for a column already read by
name (cellwise transformation of one column). -/
def mapCol (t : Table) (c : String) (f : Cell → Cell) : Table :=
  setColByRow t c (fun r => f (rowGet r c))

/-- Models Python `str.upper` on one character, restricted to ASCII (all
data in the repository is ASCII apart from accents, which upper/lower maps
leave alone in this model). -/
def upChar (c : Char) : Char :=
  if 97 ≤ c.toNat ∧ c.toNat ≤ 122 then Char.ofNat (c.toNat - 32) else c

/-- Models Python `str.lower` on one character (ASCII). -/
def lowChar (c : Char) : Char :=
  if 65 ≤ c.toNat ∧ c.toNat ≤ 90 then Char.ofNat (c.toNat + 32) else c

/-- Models Python `str.upper` (ASCII). -/
def pyUpper (s : String) : String := String.mk (s.data.map upChar)

/-- Models Python `str.lower` (ASCII). -/
def pyLower (s : String) : String := String.mk (s.data.map lowChar)

/-- Character comparison, optionally ASCII-case-insensitive (the `ci`
flag models `re.IGNORECASE`). -/
def charEq (ci : Bool) (c d : Char) : Bool :=
  if ci then lowChar c == lowChar d else c == d

/-- Does `hay` start with `needle`, comparing characters with `charEq`? -/
def startsWithCE (ci : Bool) : List Char → List Char → Bool
  | [], _ => true
  | _ :: _, [] => false
  | a :: as, b :: bs => charEq ci a b && startsWithCE ci as bs

/-- Does `hay` contain `needle` as a contiguous substring (characters
compared with `charEq`)?  An empty needle matches everything. -/
def hasSubCE (ci : Bool) (needle : List Char) : List Char → Bool
  | [] => startsWithCE ci needle []
  | c :: rest => startsWithCE ci needle (c :: rest) || hasSubCE ci needle rest

/-- Case-sensitive substring containment — the behaviour the
specification ascribes to the cedula search. -/
def strContains (hay needle : String) : Bool := hasSubCE false needle.data hay.data

/-- Case-insensitive substring containment — the behaviour the
specification ascribes to the name search. -/
def strContainsCI (hay needle : String) : Bool := hasSubCE true needle.data hay.data

/-- Numeric value of one decimal digit character. -/
def digitVal (c : Char) : Nat := c.toNat - 48

/-- Value of a list of decimal digits, most significant first. -/
def digitsVal (ds : List Char) : Nat := ds.foldl (fun a c => 10 * a + digitVal c) 0

/-- Reads an optional leading `+`/`-` sign. -/
def readSign : List Char → Int × List Char
  | '-' :: rest => (-1, rest)
  | '+' :: rest => (1, rest)
  | cs => (1, cs)

/-- Reads the exponent that follows an `e`/`E` in a Python float literal:
an optional sign and at least one digit, consuming the whole rest. -/
def readExp (cs : List Char) : Option Int :=
  let p := readSign cs
  let q := p.2.span Char.isDigit
  if q.1.isEmpty || !q.2.isEmpty then none
  else some (p.1 * (digitsVal q.1 : Int))

/-- Addition of rationals as a single normalisation step (definitionally
equal in value to `+`, see `qadd_eq`; used so that concrete instances
reduce inside `decide`). -/
def qadd (a b : Rat) : Rat :=
  mkRat (a.num * (b.den : Int) + b.num * (a.den : Int)) (a.den * b.den)

/-- Multiplication of rationals as a single normalisation step (equal in
value to `*`, see `qmul_eq`). -/
def qmul (a b : Rat) : Rat := mkRat (a.num * b.num) (a.den * b.den)

/-- Sum of a list of rationals. -/
def qsum (l : List Rat) : Rat := l.foldr qadd 0

/-- Applies a decimal exponent to the integer-pair representation of a
float mantissa. -/
def applyExp (base : Int) (den : Nat) (e : Int) : Rat :=
  if 0 ≤ e then mkRat (base * (10 : Int) ^ e.toNat) den
  else mkRat base (den * 10 ^ (-e).toNat)

/-- Assembles the value of a Python float literal from its sign, integer
digits, fractional digits and the remaining characters (an optional
exponent part). -/
def mkFloatVal (sgn : Int) (ip fp : List Char) (rest : List Char) : Option Rat :=
  let base : Int := sgn * ((digitsVal ip * 10 ^ fp.length + digitsVal fp : Nat) : Int)
  let den : Nat := 10 ^ fp.length
  match rest with
  | [] => some (mkRat base den)
  | 'e' :: es => (readExp es).map (fun e => applyExp base den e)
  | 'E' :: es => (readExp es).map (fun e => applyExp base den e)
  | _ => none

/-- Parses a whitespace-trimmed Python float literal: optional sign, then
`digits`, `digits.digits`, `.digits` or `digits.`, then an optional
exponent. -/
def pyFloatCore (cs : List Char) : Option Rat :=
  let p := readSign cs
  let q := p.2.span Char.isDigit
  match q.2 with
  | '.' :: rest =>
    let w := rest.span Char.isDigit
    if q.1.isEmpty && w.1.isEmpty then none
    else mkFloatVal p.1 q.1 w.1 w.2
  | other =>
    if q.1.isEmpty then none
    else mkFloatVal p.1 q.1 [] other

/-- Drops leading and trailing whitespace. -/
def trimWs (cs : List Char) : List Char :=
  (((cs.dropWhile Char.isWhitespace).reverse).dropWhile Char.isWhitespace).reverse

/-- Models Python `float(s)` (and elementwise `astype(float)` on strings)
on the decimal grammar: optional surrounding whitespace, optional sign,
digits with an optional fractional part and an optional exponent; `none`
models `ValueError`.  Special forms (`inf`, `nan`, underscores, hex) are
not modelled. -/
def pyFloat (s : String) : Option Rat := pyFloatCore (trimWs s.data)

/-- Models `value.replace('$', '').replace(',', '')` from
`clean_currency` in `src/app.py`, and equally the regex substitution
`.replace('[\$,]', '', regex=True)` from `load_data` in `src/App.py`:
removes every `$` and `,` character. -/
def stripCurrency (s : String) : String :=
  String.mk (s.data.filter (fun c => !(c == '$' || c == ',')))

/-- `clean_currency` from `src/app.py` (variant 2): a string has every
`$` and `,` removed and is parsed as a float, a failed parse yielding
`0.0` (the bare `except`); a non-string value is returned unchanged. -/
def clean_currency (v : Cell) : Cell :=
  match v with
  | Cell.str s =>
    match pyFloat (stripCurrency s) with
    | some q => Cell.num q
    | none => Cell.num 0
  | v => v

/-- The inline currency cleaning of `load_data` in `src/App.py`
(variant 1): `.replace('[\$,]', '', regex=True).astype(float)`.  The
regex substitution touches only string cells; `astype(float)` then
converts, raising `ValueError` (modelled as `Except.error`) on a
non-numeric string.  Floats pass through and `NaN` stays `NaN`. -/
def cleanCellV1 (v : Cell) : Except PdErr Cell :=
  match v with
  | Cell.str s =>
    match pyFloat (stripCurrency s) with
    | some q => Except.ok (Cell.num q)
    | none => Except.error PdErr.valueError
  | Cell.num q => Except.ok (Cell.num q)
  | Cell.na => Except.ok Cell.na

/-- Applies `cleanCellV1` to the `SUMA_CUOTAS` cell of every row, storing
the result in `SUMA_CUOTAS_NUM`; the first `ValueError` aborts. -/
def cleanRowsV1 : List Row → Except PdErr (List Row)
  | [] => Except.ok []
  | r :: rs =>
    match cleanCellV1 (rowGet r "SUMA_CUOTAS") with
    | Except.error e => Except.error e
    | Except.ok v =>
      match cleanRowsV1 rs with
      | Except.error e => Except.error e
      | Except.ok rest => Except.ok (rowSet r "SUMA_CUOTAS_NUM" v :: rest)

/-- The body of `load_data` in `src/App.py` (variant 1), inside its
`try`: if `SUMA_CUOTAS` is a column, derive `SUMA_CUOTAS_NUM` by the
inline cleaning (which can raise); if `ESTADO_AFILIADO` is a column,
`fillna('DESCONOCIDO').str.upper()` it.  `REGIONAL` is not touched.
pandas `.str.upper()` maps non-string values to `NaN`. -/
def fillUpperV1 (v : Cell) : Cell :=
  match v with
  | Cell.na => Cell.str "DESCONOCIDO"
  | Cell.str s => Cell.str (pyUpper s)
  | Cell.num _ => Cell.na

/-- The `SUMA_CUOTAS_NUM` derivation of variant 1's `load_data`, guarded
by the presence of `SUMA_CUOTAS`; the inline cleaning can raise. -/
def sumaStepV1 (t : Table) : Except PdErr Table :=
  if "SUMA_CUOTAS" ∈ t.cols then
    match cleanRowsV1 t.rows with
    | Except.error e => Except.error e
    | Except.ok rs =>
      Except.ok { cols := if "SUMA_CUOTAS_NUM" ∈ t.cols then t.cols
                          else t.cols ++ ["SUMA_CUOTAS_NUM"],
                  rows := rs }
  else Except.ok t

/-- The status normalisation of variant 1's `load_data`, guarded by the
presence of `ESTADO_AFILIADO`. -/
def estadoStepV1 (t1 : Table) : Table :=
  if "ESTADO_AFILIADO" ∈ t1.cols then mapCol t1 "ESTADO_AFILIADO" fillUpperV1 else t1

def load_data_v1_inner (t : Table) : Except PdErr Table :=
  match sumaStepV1 t with
  | Except.error e => Except.error e
  | Except.ok t1 => Except.ok (estadoStepV1 t1)

/-- `load_data` of `src/App.py` (variant 1) as called on
`"DB_AFILIADOS.csv"`: `none` models a source that cannot be read or
parsed as CSV.  Any exception is caught; `st.error` is shown (the `Bool`
component) and an empty DataFrame — `pd.DataFrame()`, which has no
columns at all — is returned. -/
def load_data_v1 (src : Option Table) : Table × Bool :=
  match src with
  | none => (⟨[], []⟩, true)
  | some t =>
    match load_data_v1_inner t with
    | Except.ok t1 => (t1, false)
    | Except.error _ => (⟨[], []⟩, true)

/-- `fillna(d)` at one cell. -/
def fillCell (d : Cell) (v : Cell) : Cell := if v = Cell.na then d else v

/-- `fillna` on a named column: `KeyError` when the column is absent. -/
def fillnaCol (t : Table) (c : String) (d : Cell) : Except PdErr Table :=
  if c ∈ t.cols then Except.ok (mapCol t c (fillCell d))
  else Except.error (PdErr.keyError c)

/-- The `SUMA_CUOTAS_NUM` derivation of `load_data` in `src/app.py`
(variant 2): the column is cleaned from `SUMA_CUOTAS` when that column
exists and is the scalar `0.0` otherwise. -/
def sumaStepV2 (t : Table) : Table :=
  if "SUMA_CUOTAS" ∈ t.cols then
    setColByRow t "SUMA_CUOTAS_NUM" (fun r => clean_currency (rowGet r "SUMA_CUOTAS"))
  else
    setColByRow t "SUMA_CUOTAS_NUM" (fun _ => Cell.num 0)

/-- `load_data` of `src/app.py` (variant 2): always creates
`SUMA_CUOTAS_NUM`, then unconditionally reads and fills
`ESTADO_AFILIADO` (default `'DESCONOCIDO'`) and `REGIONAL` (default
`'SIN ASIGNAR'`) — raising `KeyError` when either column is absent.  No
case normalisation is applied. -/
def load_data_v2 (t : Table) : Except PdErr Table :=
  match fillnaCol (sumaStepV2 t) "ESTADO_AFILIADO" (Cell.str "DESCONOCIDO") with
  | Except.error e => Except.error e
  | Except.ok t2 => fillnaCol t2 "REGIONAL" (Cell.str "SIN ASIGNAR")

/-- The column headers of the structured empty fallback DataFrame built
in `src/app.py` when the initial load raises. -/
def expectedColsV2 : List String :=
  ["CEDULA", "APELLIDOS / NOMBRES", "REGIONAL", "CIUDAD AFILIACION",
   "ESTADO_AFILIADO", "SUMA_CUOTAS_NUM"]

/-- The session-state initialisation of `src/app.py` (variant 2):
`load_data('DB_AFILIADOS.csv')` under a bare `try`/`except` whose handler
silently installs the structured empty DataFrame.  The `Bool` component
records whether any user-visible error message was emitted (the handler
emits none). -/
def initStateV2 (src : Option Table) : Table × Bool :=
  match src with
  | none => (⟨expectedColsV2, []⟩, false)
  | some t =>
    match load_data_v2 t with
    | Except.ok t1 => (t1, false)
    | Except.error _ => (⟨expectedColsV2, []⟩, false)

/-- The confirmed re-import of `src/app.py` (variant 2):
`load_data(uploaded_file)` with no surrounding handler, so a parse
failure or a `KeyError` propagates out of the script run. -/
def reimportV2 (src : Option Table) : Except PdErr Table :=
  match src with
  | none => Except.error PdErr.parseError
  | some t => load_data_v2 t

/-- Contribution of a dues cell to a pandas column sum: `NaN` is skipped
(contributes nothing); the cells of `SUMA_CUOTAS_NUM` are never strings. -/
def duesOf : Cell → Rat
  | Cell.num q => q
  | _ => 0

/-- `df[c].sum()` over a numeric column. -/
def sumColQ (t : Table) (c : String) : Rat :=
  qsum (t.rows.map (fun r => duesOf (rowGet r c)))

/-- `len(df[df[...]])`: the number of rows satisfying a mask. -/
def countRows (t : Table) (p : Row → Bool) : Nat := (t.rows.filter p).length

/-- `Series.str.upper() == s` at one cell: non-string cells (including
`NaN`) compare `False`. -/
def upperEqB (v : Cell) (s : String) : Bool :=
  match v with
  | Cell.str x => decide (pyUpper x = s)
  | _ => false

/-- The Dashboard KPIs of `src/App.py` (variant 1), lines 52–55:
`len(df)`, rows with `ESTADO_AFILIADO == 'ACTIVO'` (a plain equality
against the stored value), likewise `'RETIRADO'`, and the `SUMA_CUOTAS_NUM`
sum guarded by column presence.  The status comparisons raise `KeyError`
when the column is absent. -/
def kpisV1 (t : Table) : Except PdErr (Nat × Nat × Nat × Rat) :=
  if "ESTADO_AFILIADO" ∈ t.cols then
    Except.ok (t.rows.length,
      countRows t (fun r => decide (rowGet r "ESTADO_AFILIADO" = Cell.str "ACTIVO")),
      countRows t (fun r => decide (rowGet r "ESTADO_AFILIADO" = Cell.str "RETIRADO")),
      if "SUMA_CUOTAS_NUM" ∈ t.cols then sumColQ t "SUMA_CUOTAS_NUM" else 0)
  else Except.error (PdErr.keyError "ESTADO_AFILIADO")

/-- The Dashboard KPIs of `src/app.py` (variant 2), lines 63–74:
`len(df)`, rows with `ESTADO_AFILIADO.str.upper() == 'ACTIVO'`, likewise
`'RETIRADO'`, and the unguarded `SUMA_CUOTAS_NUM` sum. -/
def kpisV2 (t : Table) : Except PdErr (Nat × Nat × Nat × Rat) :=
  if "ESTADO_AFILIADO" ∈ t.cols then
    if "SUMA_CUOTAS_NUM" ∈ t.cols then
      Except.ok (t.rows.length,
        countRows t (fun r => upperEqB (rowGet r "ESTADO_AFILIADO") "ACTIVO"),
        countRows t (fun r => upperEqB (rowGet r "ESTADO_AFILIADO") "RETIRADO"),
        sumColQ t "SUMA_CUOTAS_NUM")
    else Except.error (PdErr.keyError "SUMA_CUOTAS_NUM")
  else Except.error (PdErr.keyError "ESTADO_AFILIADO")

/-- Stated from the specification's words (§4.2), for comparison with the
code: number of records whose normalized (uppercased) status equals
`"ACTIVO"`. -/
def specActiveCount (t : Table) : Nat :=
  countRows t (fun r => upperEqB (rowGet r "ESTADO_AFILIADO") "ACTIVO")

/-- Stated from the specification's words: number of records whose
normalized status equals `"RETIRADO"`. -/
def specRetiredCount (t : Table) : Nat :=
  countRows t (fun r => upperEqB (rowGet r "ESTADO_AFILIADO") "RETIRADO")

/-- Stated from the specification's words: sum of the numeric dues column
across all records, `0` if the column is absent. -/
def specTotalCollected (t : Table) : Rat :=
  if "SUMA_CUOTAS_NUM" ∈ t.cols then sumColQ t "SUMA_CUOTAS_NUM" else 0

/-- The four KPI values as the specification states them. -/
def specKpis (t : Table) : Nat × Nat × Nat × Rat :=
  (t.rows.length, specActiveCount t, specRetiredCount t, specTotalCollected t)

/-- The regional value of a record. -/
def regionalOf (r : Row) : Cell := rowGet r "REGIONAL"

/-- `df['REGIONAL'].value_counts()` at one key: the number of rows whose
regional equals the (string) key. -/
def regionalCount (t : Table) (g : String) : Nat :=
  countRows t (fun r => decide (regionalOf r = Cell.str g))

/-- `df.groupby('REGIONAL')['SUMA_CUOTAS_NUM'].sum()` at one group key. -/
def recaudoByRegional (t : Table) (g : Cell) : Rat :=
  qsum ((t.rows.filter (fun r => decide (regionalOf r = g))).map
    (fun r => duesOf (rowGet r "SUMA_CUOTAS_NUM")))

/-- The group keys produced by `groupby('REGIONAL')`: the distinct
regional values, `NaN` excluded (pandas `groupby` default `dropna=True`). -/
def regionalKeys (t : Table) : List Cell :=
  ((t.rows.map regionalOf).filter (fun c => decide (c ≠ Cell.na))).dedup

/-- The sum over all regional groups of the per-group dues sum
(`Recaudo_Total` in `resumen_regional` of variant 1, `SUMA_CUOTAS_NUM` in
`recaudo_reg` of variant 2). -/
def sumRecaudoGroups (t : Table) : Rat :=
  qsum ((regionalKeys t).map (fun g => recaudoByRegional t g))

/-- The global dues total: `df['SUMA_CUOTAS_NUM'].sum()`. -/
def totalRecaudoNum (t : Table) : Rat :=
  qsum (t.rows.map (fun r => duesOf (rowGet r "SUMA_CUOTAS_NUM")))

/-- Digits of a natural number, most significant first (fuel-based). -/
def natDigitsAux : Nat → Nat → List Char
  | _, 0 => []
  | n, fuel + 1 =>
    if n < 10 then [Char.ofNat (48 + n)]
    else natDigitsAux (n / 10) fuel ++ [Char.ofNat (48 + n % 10)]

/-- Decimal string of a natural number. -/
def natStr (n : Nat) : String := String.mk (natDigitsAux n (n + 1))

/-- Inserts a thousands separator every three digits, working on a
reversed digit list. -/
def group3 : List Char → List Char
  | a :: b :: c :: d :: rest => a :: b :: c :: ',' :: group3 (d :: rest)
  | l => l

/-- Decimal string of a natural number with thousands separators. -/
def natCommaStr (n : Nat) : String :=
  String.mk ((group3 (natStr n).data.reverse).reverse)

/-- Pads a digit string with leading zeros up to width `k`. -/
def padZeros (s : String) (k : Nat) : String :=
  String.mk (List.replicate (k - s.data.length) '0' ++ s.data)

/-- Models the Python f-string `f"${cuota:,.2f}"` used by the
new-affiliate form of `src/app.py` for non-negative values: `$`, the
integer part with thousands separators, and two decimals.  (Rounding of a
third decimal is truncating here rather than round-half-even; the form's
inputs carry at most two decimals, where the two agree.) -/
def formatCurrency (q : Rat) : String :=
  let cents : Nat := ((qmul q (mkRat 100 1)).floor).toNat
  "$" ++ natCommaStr (cents / 100) ++ "." ++ padZeros (natStr (cents % 100)) 2

/-- Models `Series.astype(str)` at one cell: strings unchanged, `NaN`
becomes `"nan"`, and a float is rendered in decimal (`numToStr` models
Python `str()` for values with a terminating decimal expansion, which
covers every value producible here). -/
def numToStr (q : Rat) : String :=
  let sign := if q.num < 0 then "-" else ""
  let na := q.num.natAbs
  match (List.range 30).find? (fun k => decide (q.den ∣ 10 ^ k) && decide (0 < k)) with
  | some k =>
    let scaled := na * 10 ^ k / q.den
    sign ++ natStr (scaled / 10 ^ k) ++ "." ++ padZeros (natStr (scaled % 10 ^ k)) k
  | none => sign ++ natStr na ++ ".0"

def cellAsPyStr : Cell → String
  | Cell.str s => s
  | Cell.num q => numToStr q
  | Cell.na => "nan"

/-- Zero-width assertions of the modelled regular-expression fragment:
`^`, `$`, `\A`, `\Z`, `\b`, `\B`. -/
inductive AnchorKind where
  | caret
  | dollar
  | strStart
  | strEnd
  | wordB
  | nonWordB
deriving DecidableEq

/-- The shorthand character classes `\d`, `\w`, `\s`. -/
inductive EscCls where
  | dCls
  | wCls
  | sCls
deriving DecidableEq

/-- One item of a bracketed character class: a single character, a
range, or a shorthand class (possibly complemented, for `\D`/`\W`/`\S`
inside brackets). -/
inductive RClassItem where
  | single (c : Char)
  | range (lo hi : Char)
  | escCls (neg : Bool) (k : EscCls)
deriving DecidableEq

/-- Abstract syntax of the modelled fragment of Python regular
expressions: literals, `.`, bracketed classes, zero-width assertions,
concatenation, alternation and Kleene star (`+`, `?` and `{m,n}` are
desugared onto these by the parser). -/
inductive Regex where
  | emptyStr
  | lit (c : Char)
  | anyChar
  | cls (neg : Bool) (items : List RClassItem)
  | anchor (k : AnchorKind)
  | seq (a b : Regex)
  | alt (a b : Regex)
  | star (a : Regex)
deriving DecidableEq

/-- Python's `\w` for ASCII text (the sources' data is ASCII). -/
def isWordChar (c : Char) : Bool := c.isAlphanum || c == '_'

/-- Python's `\s` for ASCII text. -/
def isSpaceChar (c : Char) : Bool :=
  c == ' ' || c == '\t' || c == '\n' || c == '\r' || c == '\x0b' || c == '\x0c'

def classEscMatch (k : EscCls) (c : Char) : Bool :=
  match k with
  | EscCls.dCls => c.isDigit
  | EscCls.wCls => isWordChar c
  | EscCls.sCls => isSpaceChar c

/-- Does a character match one class item (under `re.IGNORECASE` when
`ci` is set, which folds the case of the input character)? -/
def itemMatch (ci : Bool) (c : Char) : RClassItem → Bool
  | RClassItem.single d => charEq ci c d
  | RClassItem.range lo hi =>
    if ci then
      (decide (lo ≤ c) && decide (c ≤ hi)) ||
      (decide (lo ≤ lowChar c) && decide (lowChar c ≤ hi)) ||
      (decide (lo ≤ upChar c) && decide (upChar c ≤ hi))
    else decide (lo ≤ c) && decide (c ≤ hi)
  | RClassItem.escCls neg k => classEscMatch k c != neg

/-- The character at position `i`, viewed as a word character or not
(out of range counts as non-word). -/
def wordAt (s : List Char) (i : Nat) : Bool :=
  match s.drop i with
  | c :: _ => isWordChar c
  | [] => false

/-- Is position `i` a word boundary of `s`? -/
def boundaryAt (s : List Char) (i : Nat) : Bool :=
  (if i = 0 then false else wordAt s (i - 1)) != wordAt s i

/-- Does a zero-width assertion hold at position `i` of `s`?  `$` holds
at the end of the string and just before a final newline, as in Python
without `re.MULTILINE`. -/
def anchorHolds (s : List Char) (i : Nat) : AnchorKind → Bool
  | AnchorKind.caret => decide (i = 0)
  | AnchorKind.dollar => decide (i = s.length) || decide (s.drop i = ['\n'])
  | AnchorKind.strStart => decide (i = 0)
  | AnchorKind.strEnd => decide (i = s.length)
  | AnchorKind.wordB => boundaryAt s i
  | AnchorKind.nonWordB => !boundaryAt s i

/-- One closure step for the star iteration: every position reachable so
far plus everything one more `step` away. -/
def stepStar (step : Nat → List Nat) (acc : List Nat) : List Nat :=
  (acc ++ (acc.map step).flatten).dedup

/-- Iterated closure (the positions in `[0..n]` stabilise within
`n + 1` rounds). -/
def starIter (step : Nat → List Nat) : Nat → List Nat → List Nat
  | 0, acc => acc
  | fuel + 1, acc => starIter step fuel (stepStar step acc)

/-- The end positions of matches of a regex starting at position `i` of
`s` (under `re.IGNORECASE` when `ci` is set).  This is the standard
positional semantics of regular expressions with zero-width
assertions. -/
def matchEnds (ci : Bool) (s : List Char) : Regex → Nat → List Nat
  | Regex.emptyStr, i => [i]
  | Regex.lit c, i =>
    match s.drop i with
    | d :: _ => if charEq ci c d then [i + 1] else []
    | [] => []
  | Regex.anyChar, i =>
    match s.drop i with
    | d :: _ => if d = '\n' then [] else [i + 1]
    | [] => []
  | Regex.cls neg items, i =>
    match s.drop i with
    | d :: _ => if (items.any (itemMatch ci d)) != neg then [i + 1] else []
    | [] => []
  | Regex.anchor k, i => if anchorHolds s i k then [i] else []
  | Regex.seq a b, i =>
    (((matchEnds ci s a i).map (matchEnds ci s b)).flatten).dedup
  | Regex.alt a b, i => (matchEnds ci s a i ++ matchEnds ci s b i).dedup
  | Regex.star a, i => starIter (matchEnds ci s a) (s.length + 1) [i]

/-- `re.search`: does the regex match starting at some position of `s`?
(`re.IGNORECASE` when `ci` is set.) -/
def reSearch (ci : Bool) (r : Regex) (s : String) : Bool :=
  (List.range (s.data.length + 1)).any
    (fun i => !(matchEnds ci s.data r i).isEmpty)

/-- `a` repeated exactly `n` times. -/
def repeatR (a : Regex) : Nat → Regex
  | 0 => Regex.emptyStr
  | n + 1 => Regex.seq a (repeatR a n)

/-- Parses the tail of a `{m}`, `{m,}`, `{,n}` or `{m,n}` quantifier
(the `{` already consumed); `none` means the brace does not form a
quantifier and is a literal, as in Python. -/
def parseQuantTail (cs : List Char) : Option ((Nat × Option Nat) × List Char) :=
  let p := cs.span Char.isDigit
  match p.2 with
  | '}' :: rest =>
    if p.1.isEmpty then none
    else some ((digitsVal p.1, some (digitsVal p.1)), rest)
  | ',' :: rest2 =>
    let q := rest2.span Char.isDigit
    match q.2 with
    | '}' :: rest3 =>
      some ((digitsVal p.1, if q.1.isEmpty then none else some (digitsVal q.1)), rest3)
    | _ => none
  | _ => none

/-- Reads one quantifier (`*`, `+`, `?` or a brace form) if one starts
here. -/
def quantOf (cs : List Char) : Option ((Nat × Option Nat) × List Char) :=
  match cs with
  | [] => none
  | c :: rest =>
    if c = '*' then some ((0, none), rest)
    else if c = '+' then some ((1, none), rest)
    else if c = '?' then some ((0, some 1), rest)
    else if c = '{' then parseQuantTail rest
    else none

/-- Consumes the optional `?` that makes a quantifier lazy (laziness
does not change which strings contain a match). -/
def consumeLazy (cs : List Char) : List Char :=
  match cs with
  | c :: rest => if c = '?' then rest else c :: rest
  | [] => []

/-- Applies a quantifier that follows an atom: desugars the bounds,
rejects a quantified assertion (`nothing to repeat`), a `{m,n}` with
`m > n` and a double quantifier (`multiple repeat`), as Python does. -/
def applyQuant (a : Regex) (rest : List Char) : Option (Regex × List Char) :=
  match quantOf rest with
  | none => some (a, rest)
  | some ((lo, hi), rest2) =>
    match a with
    | Regex.anchor _ => none
    | _ =>
      let rest3 := consumeLazy rest2
      if (quantOf rest3).isSome then none
      else
        match hi with
        | none => some (Regex.seq (repeatR a lo) (Regex.star a), rest3)
        | some n =>
          if n < lo then none
          else some (Regex.seq (repeatR a lo)
            (repeatR (Regex.alt a Regex.emptyStr) (n - lo)), rest3)

/-- One escape inside a bracketed class; `none` is `re.error` (unknown
letter escapes; numeric escapes — octal and backreference forms — are
outside the modelled fragment and also map to `none`). -/
def classEsc (e : Char) : Option RClassItem :=
  if e = 'd' then some (RClassItem.escCls false EscCls.dCls)
  else if e = 'w' then some (RClassItem.escCls false EscCls.wCls)
  else if e = 's' then some (RClassItem.escCls false EscCls.sCls)
  else if e = 'D' then some (RClassItem.escCls true EscCls.dCls)
  else if e = 'W' then some (RClassItem.escCls true EscCls.wCls)
  else if e = 'S' then some (RClassItem.escCls true EscCls.sCls)
  else if e = 'n' then some (RClassItem.single '\n')
  else if e = 't' then some (RClassItem.single '\t')
  else if e = 'r' then some (RClassItem.single '\r')
  else if e = 'f' then some (RClassItem.single '\x0c')
  else if e = 'v' then some (RClassItem.single '\x0b')
  else if e = 'a' then some (RClassItem.single '\x07')
  else if e = '0' then some (RClassItem.single '\x00')
  else if e.isAlphanum then none
  else some (RClassItem.single e)

/-- Items of a bracketed class up to the closing `]` (`]` is literal in
first position; `a-b` is a range, with a reversed range an error; an
unterminated class is an error).  A range with an escaped endpoint is
outside the modelled fragment and maps to `none`.  Fuelled: one unit of
fuel per input character always suffices. -/
def parseClassItems : Nat → List Char → Bool → Option (List RClassItem × List Char)
  | 0, _, _ => none
  | _ + 1, [], _ => none
  | fuel + 1, c :: rest, atStart =>
    if c = ']' ∧ ¬atStart then some ([], rest)
    else if c = '\\' then
      match rest with
      | [] => none
      | e :: rest2 =>
        match classEsc e with
        | none => none
        | some item =>
          match parseClassItems fuel rest2 false with
          | none => none
          | some (items, r) => some (item :: items, r)
    else
      match rest with
      | '-' :: d :: rest2 =>
        if d = ']' ∨ d = '\\' then
          match parseClassItems fuel (d :: rest2) false with
          | none => none
          | some (items, r) =>
            some (RClassItem.single c :: RClassItem.single '-' :: items, r)
        else if c ≤ d then
          match parseClassItems fuel rest2 false with
          | none => none
          | some (items, r) => some (RClassItem.range c d :: items, r)
        else none
      | _ =>
        match parseClassItems fuel rest false with
        | none => none
        | some (items, r) => some (RClassItem.single c :: items, r)

/-- A bracketed class body (after the `[`): optional `^`, then items. -/
def parseClassBody (cs : List Char) : Option (Bool × List RClassItem × List Char) :=
  match cs with
  | c :: rest =>
    if c = '^' then
      match parseClassItems (rest.length + 1) rest true with
      | none => none
      | some (items, r) => some (true, items, r)
    else
      match parseClassItems (cs.length + 1) (c :: rest) true with
      | none => none
      | some (items, r) => some (false, items, r)
  | [] => none

/-- One escape outside a class: shorthand classes, assertions, control
characters, escaped punctuation.  Unknown letter escapes are `re.error`;
numeric escapes (backreferences/octal) and the `\x`/`\u` code forms are
outside the modelled fragment and also map to `none`. -/
def escAtom (e : Char) : Option Regex :=
  if e = 'd' then some (Regex.cls false [RClassItem.escCls false EscCls.dCls])
  else if e = 'w' then some (Regex.cls false [RClassItem.escCls false EscCls.wCls])
  else if e = 's' then some (Regex.cls false [RClassItem.escCls false EscCls.sCls])
  else if e = 'D' then some (Regex.cls true [RClassItem.escCls false EscCls.dCls])
  else if e = 'W' then some (Regex.cls true [RClassItem.escCls false EscCls.wCls])
  else if e = 'S' then some (Regex.cls true [RClassItem.escCls false EscCls.sCls])
  else if e = 'A' then some (Regex.anchor AnchorKind.strStart)
  else if e = 'Z' then some (Regex.anchor AnchorKind.strEnd)
  else if e = 'b' then some (Regex.anchor AnchorKind.wordB)
  else if e = 'B' then some (Regex.anchor AnchorKind.nonWordB)
  else if e = 'n' then some (Regex.lit '\n')
  else if e = 't' then some (Regex.lit '\t')
  else if e = 'r' then some (Regex.lit '\r')
  else if e = 'f' then some (Regex.lit '\x0c')
  else if e = 'v' then some (Regex.lit '\x0b')
  else if e = 'a' then some (Regex.lit '\x07')
  else if e = '0' then some (Regex.lit '\x00')
  else if e.isAlphanum then none
  else some (Regex.lit e)

/-- Closes a parenthesised group. -/
def groupTail : Option (Regex × List Char) → Option (Regex × List Char)
  | some (r, c :: rest) => if c = ')' then some (r, rest) else none
  | _ => none

/-- The recursion levels of the descent parser: alternation,
concatenation, quantified atom, atom. -/
inductive PMode where
  | palt
  | pcat
  | ppost
  | patom

/-- Recursive-descent parser for the modelled Python regex fragment,
fuelled (the fuel bound is generous; running out yields `none`).
Faithful to `re` on the fragment: `(...)` and `(?:...)` groups,
alternation, quantifiers with laziness markers, bracketed classes,
escapes and assertions, with Python's errors (`nothing to repeat`,
`multiple repeat`, bad ranges, bad escapes, unbalanced brackets) as
`none`.  Group extensions other than `(?:`, backreferences and
`\x`/`\u` code escapes are outside the fragment and also yield
`none`. -/
def parseF : Nat → PMode → List Char → Option (Regex × List Char)
  | 0, _, _ => none
  | _ + 1, PMode.patom, [] => none
  | fuel + 1, PMode.patom, c :: rest =>
    if c = '(' then
      match rest with
      | '?' :: ':' :: rest2 => groupTail (parseF fuel PMode.palt rest2)
      | '?' :: _ => none
      | _ => groupTail (parseF fuel PMode.palt rest)
    else if c = '[' then
      match parseClassBody rest with
      | none => none
      | some (neg, items, rest2) => some (Regex.cls neg items, rest2)
    else if c = '\\' then
      match rest with
      | [] => none
      | e :: rest2 =>
        match escAtom e with
        | none => none
        | some r => some (r, rest2)
    else if c = '^' then some (Regex.anchor AnchorKind.caret, rest)
    else if c = '$' then some (Regex.anchor AnchorKind.dollar, rest)
    else if c = '.' then some (Regex.anyChar, rest)
    else if c = '*' ∨ c = '+' ∨ c = '?' then none
    else if c = ')' ∨ c = '|' then none
    else some (Regex.lit c, rest)
  | fuel + 1, PMode.ppost, cs =>
    match parseF fuel PMode.patom cs with
    | none => none
    | some (a, rest) => applyQuant a rest
  | fuel + 1, PMode.pcat, cs =>
    match cs with
    | [] => some (Regex.emptyStr, [])
    | c :: rest =>
      if c = ')' ∨ c = '|' then some (Regex.emptyStr, c :: rest)
      else
        match parseF fuel PMode.ppost (c :: rest) with
        | none => none
        | some (r1, rest1) =>
          match parseF fuel PMode.pcat rest1 with
          | none => none
          | some (r2, rest2) => some (Regex.seq r1 r2, rest2)
  | fuel + 1, PMode.palt, cs =>
    match parseF fuel PMode.pcat cs with
    | none => none
    | some (r1, rest) =>
      match rest with
      | '|' :: rest2 =>
        match parseF fuel PMode.palt rest2 with
        | none => none
        | some (r2, rest3) => some (Regex.alt r1 r2, rest3)
      | _ => some (r1, rest)

/-- `re.compile(q)`: `none` models `re.error` (and the constructs listed
at `parseF` that are outside the modelled fragment).  Leftover input can
only be an unbalanced `)`, an error in Python too. -/
def pyRegexParse (q : String) : Option Regex :=
  match parseF (4 * q.data.length + 8) PMode.palt q.data with
  | some (r, []) => some r
  | _ => none

/-- The search mask shared by the two variants' search boxes, for a
compiled pattern: `df['APELLIDOS / NOMBRES'].str.contains(search,
case=False, na=False)` — regex search with `re.IGNORECASE`, `NaN` and
non-string names matching nothing — OR
`df['CEDULA'].astype(str).str.contains(search)` — case-sensitive regex
search on the cedula rendered as text. -/
def searchMask (re : Regex) (r : Row) : Bool :=
  (match rowGet r "APELLIDOS / NOMBRES" with
   | Cell.str s => reSearch true re s
   | _ => false) || reSearch false re (cellAsPyStr (rowGet r "CEDULA"))

/-- The search filter of `src/App.py` (variant 1, lines 97–99): the two
`.str.contains` masks joined with `|`, applied unconditionally; pandas
compiles the query as a regular expression first (`regex=True` default),
so an invalid pattern raises `re.error`.  (The name and cedula columns
are modelled as all-`NaN` when absent rather than as a `KeyError`; every
state reached in the source has both.) -/
def searchV1 (t : Table) (q : String) : Except PdErr Table :=
  match pyRegexParse q with
  | none => Except.error PdErr.reError
  | some re => Except.ok { t with rows := t.rows.filter (fun r => searchMask re r) }

/-- The search filter of `src/app.py` (variant 2, lines 123–129): the
same masks, applied only when the query is non-empty (`if search:`). -/
def searchV2 (t : Table) (q : String) : Except PdErr Table :=
  if q.isEmpty then Except.ok t
  else
    match pyRegexParse q with
    | none => Except.error PdErr.reError
    | some re => Except.ok { t with rows := t.rows.filter (fun r => searchMask re r) }

/-- Is the character free of every regex metacharacter?  For such
characters the pattern is matched literally. -/
def isLitChar (c : Char) : Bool :=
  !(decide (c ∈ ['(', ')', '[', ']', '{', '}', '.', '^', '$', '*', '+', '?', '|', '\\']))

/-- A query free of regex metacharacters: `re.search` on it is literal
substring search. -/
def isLiteralPat (q : String) : Bool := q.data.all isLitChar

/-- The regex denoting a literal character sequence. -/
def seqLits (cs : List Char) : Regex :=
  cs.foldr (fun c acc => Regex.seq (Regex.lit c) acc) Regex.emptyStr

/-- The search predicate exactly as claim C5 words it: case-insensitive
substring match against the name OR against the cedula rendered as text.
Stated from the claim for comparison with the code. -/
def claimSearchMatch (r : Row) (q : String) : Bool :=
  (match rowGet r "APELLIDOS / NOMBRES" with
   | Cell.str s => strContainsCI s q
   | _ => false) || strContainsCI (cellAsPyStr (rowGet r "CEDULA")) q

/-- `pd.concat([df, pd.DataFrame([new_row])], ignore_index=True)`: the
row is appended; columns of the new row absent from the table are
appended to the column set (existing rows read `NaN` there). -/
def concatRow (t : Table) (r : Row) : Table :=
  { cols := t.cols ++ (r.map Prod.fst).filter (fun c => decide (c ∉ t.cols)),
    rows := t.rows ++ [r] }

/-- The `new_row` dictionary built by the `nuevo_afiliado` form of
`src/app.py` (variant 2, lines 112–116). -/
def newRowV2 (ced nom reg est : String) (cuota : Rat) : Row :=
  [("CEDULA", Cell.str ced), ("APELLIDOS / NOMBRES", Cell.str nom),
   ("REGIONAL", Cell.str reg), ("ESTADO_AFILIADO", Cell.str est),
   ("SUMA_CUOTAS_NUM", Cell.num cuota),
   ("SUMA_CUOTAS", Cell.str (formatCurrency cuota))]

/-- The `nuevo_afiliado` form submission of `src/app.py` (variant 2,
lines 110–119): builds `new_row` and concatenates it onto the session
DataFrame. -/
def submitV2 (t : Table) (ced nom reg est : String) (cuota : Rat) : Table :=
  concatRow t (newRowV2 ced nom reg est cuota)

/-- The `new_member` form submission of `src/App.py` (variant 1, lines
91–93): on submit the code only emits
`st.success(f"Afiliado {nombre} registrado correctamente (Simulado).")`
— no record is appended and the collection is left untouched. -/
def submitV1 (t : Table) (_ced _nom _reg _est : String) (_cuota : Rat) : Table :=
  t

/-- One CSV field as `DataFrame.to_csv` writes it: quoted, with inner
quotes doubled, when it contains a separator, a quote or a line break. -/
def csvField (s : String) : String :=
  if s.data.any (fun c => c == ',' || c == '"' || c == '\n' || c == '\r') then
    "\"" ++ String.mk (s.data.foldr
      (fun c acc => if c == '"' then '"' :: '"' :: acc else c :: acc) []) ++ "\""
  else s

/-- One cell as `to_csv` writes it: `NaN` as an empty field. -/
def cellCsv : Cell → String
  | Cell.na => ""
  | Cell.str s => csvField s
  | Cell.num q => numToStr q

/-- The lines of `df.to_csv(index=False)`: the header row (the column
names) followed by one line of fields per record, with no index column. -/
def csvLines (t : Table) : List (List String) :=
  t.cols :: t.rows.map (fun r => t.cols.map (fun c => cellCsv (rowGet r c)))

/-- `df.to_csv(index=False)` as a string (the `.encode('utf-8')` of the
source is the identity at this level of abstraction). -/
def toCsv (t : Table) : String :=
  String.intercalate "\n" ((csvLines t).map (String.intercalate ",")) ++ "\n"

/-- The download branch of `src/app.py` (variant 2, lines 149–159): it
copies the session DataFrame, serialises the copy, and hands
`st.download_button` the bytes and the fixed filename; the session state
is not assigned, so the post-branch state is the input state. -/
def exportV2 (t : Table) : Table × String × String :=
  (t, "DB_AFILIADOS_ACTUALIZADA.csv", toCsv t)

/-- What a run of `src/App.py` renders for the Dashboard menu item. -/
inductive V1Render where
  | dash (k : Nat × Nat × Nat × Rat) (pct : Rat)
  | warn
deriving DecidableEq

/-- `(activos/total_afiliados)*100` with Python's `ZeroDivisionError`
modelled explicitly. -/
def pctOf (activos total : Nat) : Except PdErr Rat :=
  if total = 0 then Except.error PdErr.zeroDiv
  else Except.ok (qmul (mkRat (activos : Int) total) (mkRat 100 1))

/-- The top-level Dashboard flow of `src/App.py` (variant 1): load, then
`if not df.empty:` compute the KPIs and the active percentage, else only
warn. -/
def scriptV1 (src : Option Table) : Except PdErr V1Render :=
  let df := (load_data_v1 src).1
  if df.rows.isEmpty then Except.ok V1Render.warn
  else
    match kpisV1 df with
    | Except.error e => Except.error e
    | Except.ok k =>
      match pctOf k.2.1 k.1 with
      | Except.error e => Except.error e
      | Except.ok p => Except.ok (V1Render.dash k p)

/-- The sample record of the specification's first scenario (§8). -/
def rowEx : Row :=
  [("CEDULA", Cell.str "123"), ("APELLIDOS / NOMBRES", Cell.str "Juan Perez"),
   ("REGIONAL", Cell.str "SUR"), ("CIUDAD AFILIACION", Cell.str "Cali"),
   ("ESTADO_AFILIADO", Cell.str "activo"), ("SUMA_CUOTAS", Cell.str "$1,000.00")]

/-- A one-record parsed CSV in the expected raw shape. -/
def tEx : Table :=
  ⟨["CEDULA", "APELLIDOS / NOMBRES", "REGIONAL", "CIUDAD AFILIACION",
    "ESTADO_AFILIADO", "SUMA_CUOTAS"], [rowEx]⟩

/-- `tEx` after variant 1's `load_data`. -/
def tExLoadedV1 : Table := (load_data_v1 (some tEx)).1

/-- `tEx` after variant 2's `load_data` (which must succeed). -/
def tExLoadedV2 : Table := (initStateV2 (some tEx)).1

/-- A parsed CSV whose only record has no regional value and dues of
`$100.00`. -/
def tRegNa : Table :=
  ⟨["REGIONAL", "SUMA_CUOTAS"],
   [[("REGIONAL", Cell.na), ("SUMA_CUOTAS", Cell.str "$100.00")]]⟩

/-- A parsed CSV lacking `SUMA_CUOTAS`, `ESTADO_AFILIADO` and
`REGIONAL`. -/
def tBare : Table := ⟨["CEDULA"], [[("CEDULA", Cell.str "1")]]⟩

/-- A parsed CSV whose only record has a mixed-case cedula. -/
def tCed : Table :=
  ⟨["CEDULA", "APELLIDOS / NOMBRES"],
   [[("CEDULA", Cell.str "9A3"), ("APELLIDOS / NOMBRES", Cell.str "Juan Perez")]]⟩

/-- A parsed CSV whose only record has a non-numeric dues value. -/
def tBadDues : Table :=
  ⟨["REGIONAL", "SUMA_CUOTAS"],
   [[("REGIONAL", Cell.str "SUR"), ("SUMA_CUOTAS", Cell.str "N/A")]]⟩

/-- The search predicate as the amended claim words it: case-insensitive
substring match against the name OR case-sensitive substring match
against the cedula rendered as text, joined with OR.  Stated from the
(amended) specification's words for comparison with the code. -/
def amendedSearchMatch (r : Row) (q : String) : Bool :=
  (match rowGet r "APELLIDOS / NOMBRES" with
   | Cell.str s => strContainsCI s q
   | _ => false) || strContains (cellAsPyStr (rowGet r "CEDULA")) q

/-- Is a cell a string or a missing value (not numeric)?  Used to state
the precondition of variant 1's `.str.upper()` step. -/
def isStrOrNa : Cell → Bool
  | Cell.num _ => false
  | _ => true

theorem toNat_upChar (c : Char) :
    (upChar c).toNat = if 97 ≤ c.toNat ∧ c.toNat ≤ 122 then c.toNat - 32 else c.toNat := by
  unfold upChar
  split
  · rename_i h
    rw [Char.ofNat, dif_pos (Or.inl (by omega))]
    rfl
  · rfl

theorem upChar_eq_self {c : Char} (h : ¬ (97 ≤ c.toNat ∧ c.toNat ≤ 122)) : upChar c = c := by
  unfold upChar
  rw [if_neg h]

theorem upChar_idem (c : Char) : upChar (upChar c) = upChar c := by
  by_cases h : 97 ≤ c.toNat ∧ c.toNat ≤ 122
  · apply upChar_eq_self
    have h1 := toNat_upChar c
    rw [if_pos h] at h1
    omega
  · simp only [upChar_eq_self h]

theorem pyUpper_idem (s : String) : pyUpper (pyUpper s) = pyUpper s := by
  unfold pyUpper
  simp only [List.map_map]
  congr 1
  apply List.map_congr_left
  intro a _
  simp [Function.comp, upChar_idem]

theorem qadd_eq (a b : Rat) : qadd a b = a + b := (Rat.add_def' a b).symm

theorem qmul_eq (a b : Rat) : qmul a b = a * b := by
  rw [Rat.mul_def, Rat.normalize_eq_mkRat]
  rfl

theorem qsum_eq (l : List Rat) : qsum l = l.sum := by
  induction l with
  | nil => rfl
  | cons a l ih =>
    unfold qsum at ih ⊢
    rw [List.foldr_cons, List.sum_cons, qadd_eq, ih]

theorem rowGet_cons (k : String) (v : Cell) (r : Row) (c : String) :
    rowGet ((k, v) :: r) c = if k = c then v else rowGet r c := rfl

theorem rowGet_rowSet_self (r : Row) (c : String) (v : Cell) :
    rowGet (rowSet r c v) c = v := by
  rw [rowSet, rowGet_cons, if_pos rfl]

theorem rowGet_removeKey (r : Row) {c c' : String} (h : c ≠ c') :
    rowGet (removeKey r c) c' = rowGet r c' := by
  induction r with
  | nil => rfl
  | cons p r ih =>
    obtain ⟨k, v⟩ := p
    rw [removeKey]
    by_cases hk : k = c
    · rw [if_pos hk, ih, rowGet_cons, if_neg (fun he => h (hk.symm.trans he))]
    · rw [if_neg hk, rowGet_cons, rowGet_cons, ih]

theorem rowGet_rowSet_ne (r : Row) {c c' : String} (h : c ≠ c') (v : Cell) :
    rowGet (rowSet r c v) c' = rowGet r c' := by
  rw [rowSet, rowGet_cons, if_neg h]
  exact rowGet_removeKey r h

theorem hasSubCE_nil (ci : Bool) (hay : List Char) : hasSubCE ci [] hay = true := by
  cases hay <;> rfl

theorem sum_map_add_single {gs : List Cell} {k : Cell} (S : Cell → Rat) (a : Rat)
    (hnd : gs.Nodup) (hk : k ∈ gs) :
    (gs.map (fun g => if k = g then a + S g else S g)).sum = a + (gs.map S).sum := by
  induction gs with
  | nil => cases hk
  | cons g gs ih =>
    rw [List.map_cons, List.map_cons, List.sum_cons, List.sum_cons]
    rcases List.mem_cons.mp hk with hkg | hkg
    · subst hkg
      rw [if_pos rfl]
      have hnot : k ∉ gs := (List.nodup_cons.mp hnd).1
      have hmap : gs.map (fun g => if k = g then a + S g else S g) = gs.map S := by
        apply List.map_congr_left
        intro x hx
        exact if_neg (fun he => hnot (by rw [he]; exact hx))
      rw [hmap]
      ring
    · have hkne : k ≠ g := fun he => (List.nodup_cons.mp hnd).1 (by rw [← he]; exact hkg)
      rw [if_neg hkne, ih (List.nodup_cons.mp hnd).2 hkg]
      ring

theorem sum_groups (key : Row → Cell) (f : Row → Rat) :
    ∀ (rows : List Row) (gs : List Cell), gs.Nodup → (∀ r ∈ rows, key r ∈ gs) →
      (gs.map (fun g => ((rows.filter (fun x => decide (key x = g))).map f).sum)).sum
        = (rows.map f).sum := by
  intro rows
  induction rows with
  | nil =>
    intro gs _ _
    simp
  | cons r rs ih =>
    intro gs hnd hmem
    have hkr : key r ∈ gs := hmem r (List.mem_cons_self r rs)
    have hstep : gs.map (fun g => (((r :: rs).filter (fun x => decide (key x = g))).map f).sum)
        = gs.map (fun g => if key r = g then
            f r + ((rs.filter (fun x => decide (key x = g))).map f).sum
          else ((rs.filter (fun x => decide (key x = g))).map f).sum) := by
      apply List.map_congr_left
      intro g _
      rw [List.filter_cons]
      by_cases hg : key r = g
      · rw [if_pos (by simp [hg]), if_pos hg, List.map_cons, List.sum_cons]
      · rw [if_neg (by simp [hg]), if_neg hg]
    rw [hstep, sum_map_add_single _ _ hnd hkr,
      ih gs hnd (fun x hx => hmem x (List.mem_cons_of_mem r hx)),
      List.map_cons, List.sum_cons]

theorem rows_setColByRow (t : Table) (c : String) (f : Row → Cell) :
    (setColByRow t c f).rows = t.rows.map (fun r => rowSet r c (f r)) := rfl

theorem mem_cols_setColByRow (t : Table) (c c' : String) (f : Row → Cell) :
    c' ∈ (setColByRow t c f).cols ↔ c' ∈ t.cols ∨ c' = c := by
  unfold setColByRow
  by_cases h : c ∈ t.cols
  · rw [if_pos h]
    constructor
    · exact Or.inl
    · rintro (hc | hc)
      · exact hc
      · rw [hc]; exact h
  · rw [if_neg h]
    simp

theorem cols_mapCol {t : Table} {c : String} (h : c ∈ t.cols) (f : Cell → Cell) :
    (mapCol t c f).cols = t.cols := by
  unfold mapCol setColByRow
  rw [if_pos h]

theorem rows_mapCol (t : Table) (c : String) (f : Cell → Cell) :
    (mapCol t c f).rows = t.rows.map (fun r => rowSet r c (f (rowGet r c))) := rfl

theorem mem_cols_sumaStepV2 {c : String} (t : Table) (h : c ≠ "SUMA_CUOTAS_NUM") :
    c ∈ (sumaStepV2 t).cols ↔ c ∈ t.cols := by
  unfold sumaStepV2
  by_cases hs : "SUMA_CUOTAS" ∈ t.cols
  · rw [if_pos hs, mem_cols_setColByRow]
    exact ⟨fun hc => hc.resolve_right h, Or.inl⟩
  · rw [if_neg hs, mem_cols_setColByRow]
    exact ⟨fun hc => hc.resolve_right h, Or.inl⟩

theorem num_mem_cols_sumaStepV2 (t : Table) :
    "SUMA_CUOTAS_NUM" ∈ (sumaStepV2 t).cols := by
  unfold sumaStepV2
  by_cases hs : "SUMA_CUOTAS" ∈ t.cols
  · rw [if_pos hs, mem_cols_setColByRow]; exact Or.inr rfl
  · rw [if_neg hs, mem_cols_setColByRow]; exact Or.inr rfl

theorem fillnaCol_ok {t : Table} {c : String} (h : c ∈ t.cols) (d : Cell) :
    fillnaCol t c d = Except.ok (mapCol t c (fillCell d)) := by
  unfold fillnaCol
  rw [if_pos h]

theorem fillnaCol_err {t : Table} {c : String} (h : c ∉ t.cols) (d : Cell) :
    fillnaCol t c d = Except.error (PdErr.keyError c) := by
  unfold fillnaCol
  rw [if_neg h]

theorem load_data_v2_ok_iff (t t₂ : Table) :
    load_data_v2 t = Except.ok t₂ ↔
      "ESTADO_AFILIADO" ∈ t.cols ∧ "REGIONAL" ∈ t.cols ∧
      t₂ = mapCol (mapCol (sumaStepV2 t) "ESTADO_AFILIADO" (fillCell (Cell.str "DESCONOCIDO")))
             "REGIONAL" (fillCell (Cell.str "SIN ASIGNAR")) := by
  unfold load_data_v2
  by_cases he : "ESTADO_AFILIADO" ∈ (sumaStepV2 t).cols
  · rw [fillnaCol_ok he]
    show fillnaCol (mapCol (sumaStepV2 t) "ESTADO_AFILIADO" (fillCell (Cell.str "DESCONOCIDO")))
        "REGIONAL" (Cell.str "SIN ASIGNAR") = Except.ok t₂ ↔ _
    have he' : "ESTADO_AFILIADO" ∈ t.cols := (mem_cols_sumaStepV2 t (by decide)).mp he
    have hcolsE : (mapCol (sumaStepV2 t) "ESTADO_AFILIADO"
        (fillCell (Cell.str "DESCONOCIDO"))).cols = (sumaStepV2 t).cols :=
      cols_mapCol he _
    by_cases hr : "REGIONAL" ∈ (sumaStepV2 t).cols
    · rw [fillnaCol_ok (by rw [hcolsE]; exact hr)]
      have hr' : "REGIONAL" ∈ t.cols := (mem_cols_sumaStepV2 t (by decide)).mp hr
      constructor
      · intro h
        exact ⟨he', hr', ((Except.ok.injEq _ _).mp h).symm⟩
      · intro ⟨_, _, h⟩
        rw [h]
    · rw [fillnaCol_err (by rw [hcolsE]; exact hr)]
      constructor
      · intro h; cases h
      · intro ⟨_, hr', _⟩
        exact absurd ((mem_cols_sumaStepV2 t (by decide)).mpr hr') hr
  · rw [fillnaCol_err he]
    constructor
    · intro h; cases h
    · intro ⟨he', _, _⟩
      exact absurd ((mem_cols_sumaStepV2 t (by decide)).mpr he') he

theorem load_data_v1_inner_ok {t t₁ : Table} (h : load_data_v1_inner t = Except.ok t₁) :
    ∃ t', sumaStepV1 t = Except.ok t' ∧ t₁ = estadoStepV1 t' := by
  unfold load_data_v1_inner at h
  cases hs : sumaStepV1 t with
  | error e => rw [hs] at h; cases h
  | ok t' =>
    rw [hs] at h
    exact ⟨t', rfl, ((Except.ok.injEq _ _).mp h).symm⟩

theorem sumaStepV1_mem_cols {t t' : Table} (h : sumaStepV1 t = Except.ok t') {c : String}
    (hc : c ∈ t.cols) : c ∈ t'.cols := by
  unfold sumaStepV1 at h
  by_cases hs : "SUMA_CUOTAS" ∈ t.cols
  · rw [if_pos hs] at h
    cases hcr : cleanRowsV1 t.rows with
    | error e => rw [hcr] at h; cases h
    | ok rs =>
      rw [hcr] at h
      have ht' : t' = { cols := if "SUMA_CUOTAS_NUM" ∈ t.cols then t.cols
                                else t.cols ++ ["SUMA_CUOTAS_NUM"], rows := rs } :=
        ((Except.ok.injEq _ _).mp h).symm
      rw [ht']
      show c ∈ (if "SUMA_CUOTAS_NUM" ∈ t.cols then t.cols else t.cols ++ ["SUMA_CUOTAS_NUM"])
      by_cases hn : "SUMA_CUOTAS_NUM" ∈ t.cols
      · rw [if_pos hn]; exact hc
      · rw [if_neg hn]; exact List.mem_append_left _ hc
  · rw [if_neg hs] at h
    rw [← (Except.ok.injEq _ _).mp h]
    exact hc

/-- C1 (counterexample): on the non-numeric dues value `"N/A"` variant 1's
inline cleaning raises `ValueError` — and its `load_data` therefore falls
back to the empty frame with an error message — instead of yielding the
claimed `0.0`; variant 2's `clean_currency` does yield `0.0`.  The claim
that the `0.0`-on-failure behaviour holds in both variants is false. -/
theorem currency_cleaning_cex :
    cleanCellV1 (Cell.str "N/A") = Except.error PdErr.valueError ∧
    clean_currency (Cell.str "N/A") = Cell.num 0 ∧
    load_data_v1 (some tBadDues) = (⟨[], []⟩, true) :=
  ⟨rfl, rfl, rfl⟩

/-- C1 (amended): for every raw dues value, variant 2's `clean_currency`
strips all `$` and `,` characters from a string and parses it, yielding
the parsed number on success and `0.0` on failure, and returns non-string
values unchanged; variant 1's inline cleaning strips and parses
identically on success and passes numeric values through, but a
non-numeric stripped string raises a `ValueError` (failing the whole
load) instead of yielding `0.0`. -/
theorem currency_cleaning (s : String) (q : Rat) :
    (pyFloat (stripCurrency s) = some q →
      clean_currency (Cell.str s) = Cell.num q ∧
      cleanCellV1 (Cell.str s) = Except.ok (Cell.num q)) ∧
    (pyFloat (stripCurrency s) = none →
      clean_currency (Cell.str s) = Cell.num 0 ∧
      cleanCellV1 (Cell.str s) = Except.error PdErr.valueError) ∧
    clean_currency (Cell.num q) = Cell.num q ∧
    cleanCellV1 (Cell.num q) = Except.ok (Cell.num q) := by
  refine ⟨fun h => ⟨?_, ?_⟩, fun h => ⟨?_, ?_⟩, rfl, rfl⟩
  · show (match pyFloat (stripCurrency s) with
          | some q => Cell.num q | none => Cell.num 0) = Cell.num q
    rw [h]
  · show (match pyFloat (stripCurrency s) with
          | some q => Except.ok (Cell.num q)
          | none => Except.error PdErr.valueError) = Except.ok (Cell.num q)
    rw [h]
  · show (match pyFloat (stripCurrency s) with
          | some q => Cell.num q | none => Cell.num 0) = Cell.num 0
    rw [h]
  · show (match pyFloat (stripCurrency s) with
          | some q => Except.ok (Cell.num q)
          | none => Except.error PdErr.valueError) = Except.error PdErr.valueError
    rw [h]

/-- Witness for C1 at the specification's sample value `"$1,000.00"`. -/
theorem currency_cleaning_witness :
    clean_currency (Cell.str "$1,000.00") = Cell.num (mkRat 1000 1) ∧
    cleanCellV1 (Cell.str "$1,000.00") = Except.ok (Cell.num (mkRat 1000 1)) :=
  (currency_cleaning "$1,000.00" (mkRat 1000 1)).1 (by decide)

/-- C3 (counterexample): when the CSV source cannot be parsed, variant 1's
fallback collection is `pd.DataFrame()` with no columns at all — it does
not carry the expected column headers — and variant 2's initial-load
fallback, which does carry them, emits no user-visible message.  The
claim as stated (message shown and expected headers kept on every load
path in both variants) is therefore false. -/
theorem load_error_fallback_cex :
    (load_data_v1 none).1.cols = [] ∧ expectedColsV2 ≠ [] ∧
    (initStateV2 none).2 = false :=
  ⟨rfl, by decide, rfl⟩

/-- C3 (amended): an unparsable CSV source never crashes the initial load
of either variant: variant 2 silently installs an empty table that
carries the expected column headers (no message), while variant 1 shows
an error message and installs a fully empty table with no columns; on
variant 2's confirmed re-import, however, the parse error propagates
uncaught out of the handler. -/
theorem load_error_fallback :
    initStateV2 none = (⟨expectedColsV2, []⟩, false) ∧
    load_data_v1 none = (⟨[], []⟩, true) ∧
    reimportV2 none = Except.error PdErr.parseError :=
  ⟨rfl, rfl, rfl⟩

/-- C9: the export of variant 2 is a pure read of the session state under
the fixed filename `DB_AFILIADOS_ACTUALIZADA.csv`: the collection after
the branch equals the collection before it, and the serialised payload
has the header row of column names first, exactly one line per record
after it, and every line carrying exactly one field per column (no index
column). -/
theorem export_pure_read (t : Table) :
    (exportV2 t).1 = t ∧
    (exportV2 t).2.1 = "DB_AFILIADOS_ACTUALIZADA.csv" ∧
    (exportV2 t).2.2 = toCsv t ∧
    (csvLines t).length = t.rows.length + 1 ∧
    (csvLines t).head? = some t.cols ∧
    (∀ line ∈ csvLines t, line.length = t.cols.length) := by
  refine ⟨rfl, rfl, rfl, ?_, rfl, ?_⟩
  · unfold csvLines
    rw [List.length_cons, List.length_map]
  · intro line hl
    unfold csvLines at hl
    rcases List.mem_cons.mp hl with h | h
    · rw [h]
    · obtain ⟨r, _, hr⟩ := List.mem_map.mp h
      rw [← hr, List.length_map]

/-- Witness for C9: the data line serialised from the loaded sample table
has exactly one field per column. -/
theorem export_pure_read_witness :
    (["123", "Juan Perez", "SUR", "Cali", "activo", "\"$1,000.00\"",
      "1000.0"] : List String).length = tExLoadedV2.cols.length :=
  (export_pure_read tExLoadedV2).2.2.2.2.2 _ (by decide)

theorem kpisV1_cases (t : Table) :
    kpisV1 t = Except.error (PdErr.keyError "ESTADO_AFILIADO") ∨
    ∃ k, kpisV1 t = Except.ok k ∧ k.1 = t.rows.length := by
  unfold kpisV1
  by_cases hE : "ESTADO_AFILIADO" ∈ t.cols
  · rw [if_pos hE]
    exact Or.inr ⟨_, rfl, rfl⟩
  · rw [if_neg hE]
    exact Or.inl rfl

/-- C10: in variant 1, the Dashboard's active-percentage division
`(activos/total_afiliados)*100` is evaluated only inside the
`if not df.empty:` guard, where the total record count is at least one —
so a run of the script can raise a `KeyError` but never a
`ZeroDivisionError`. -/
theorem dashboard_no_zero_division (src : Option Table) :
    scriptV1 src ≠ Except.error PdErr.zeroDiv := by
  intro h
  unfold scriptV1 at h
  by_cases he : (load_data_v1 src).1.rows.isEmpty
  · rw [if_pos he] at h
    cases h
  · rw [if_neg he] at h
    rcases kpisV1_cases (load_data_v1 src).1 with hk | ⟨k, hk, hlen⟩
    · rw [hk] at h
      have h' : Except.error (α := V1Render) (PdErr.keyError "ESTADO_AFILIADO")
          = Except.error PdErr.zeroDiv := h
      have := (Except.error.injEq _ _).mp h'
      cases this
    · rw [hk] at h
      have hne : k.1 ≠ 0 := by
        rw [hlen]
        intro h0
        exact he (by rw [List.length_eq_zero.mp h0]; rfl)
      have h' : (match pctOf k.2.1 k.1 with
          | Except.error e => Except.error e
          | Except.ok p => Except.ok (V1Render.dash k p)) = Except.error PdErr.zeroDiv := h
      unfold pctOf at h'
      rw [if_neg hne] at h'
      cases h'

/-- C7 (counterexample): a parsable CSV lacking `ESTADO_AFILIADO` makes
variant 2's `load_data` raise `KeyError` instead of succeeding — the
claim that load_data in either variant succeeds on any parsable input
with missing expected columns is false. -/
theorem missing_columns_cex :
    load_data_v2 tBare = Except.error (PdErr.keyError "ESTADO_AFILIADO") := rfl

/-- C7 (amended): missing expected columns degrade gracefully in
variant 1 — its loader is the identity when both dues-related columns are
absent, and the dashboard's collected total defaults to `0` without the
numeric column — and variant 2 defaults a missing `SUMA_CUOTAS` to an
all-zero numeric column; but variant 2's loader raises `KeyError` when
`ESTADO_AFILIADO` or `REGIONAL` is absent. -/
theorem missing_columns (t t₂ : Table) (k : Nat × Nat × Nat × Rat) :
    ("SUMA_CUOTAS" ∉ t.cols → "ESTADO_AFILIADO" ∉ t.cols →
      load_data_v1_inner t = Except.ok t) ∧
    ("SUMA_CUOTAS_NUM" ∉ t.cols → kpisV1 t = Except.ok k → k.2.2.2 = 0) ∧
    ("ESTADO_AFILIADO" ∉ t.cols →
      load_data_v2 t = Except.error (PdErr.keyError "ESTADO_AFILIADO")) ∧
    ("ESTADO_AFILIADO" ∈ t.cols → "REGIONAL" ∉ t.cols →
      load_data_v2 t = Except.error (PdErr.keyError "REGIONAL")) ∧
    ("SUMA_CUOTAS" ∉ t.cols → load_data_v2 t = Except.ok t₂ →
      totalRecaudoNum t₂ = 0) := by
  refine ⟨fun hs hE => ?_, fun hn hk => ?_, fun hE => ?_, fun hE hR => ?_, fun hs hok => ?_⟩
  · have h1 : sumaStepV1 t = Except.ok t := by
      unfold sumaStepV1
      rw [if_neg hs]
    unfold load_data_v1_inner
    rw [h1]
    show Except.ok (estadoStepV1 t) = Except.ok t
    unfold estadoStepV1
    rw [if_neg hE]
  · unfold kpisV1 at hk
    by_cases hE : "ESTADO_AFILIADO" ∈ t.cols
    · rw [if_pos hE] at hk
      have hkk := (Except.ok.injEq _ _).mp hk
      rw [← hkk]
      show (if "SUMA_CUOTAS_NUM" ∈ t.cols then sumColQ t "SUMA_CUOTAS_NUM" else 0) = 0
      rw [if_neg hn]
    · rw [if_neg hE] at hk
      cases hk
  · unfold load_data_v2
    rw [fillnaCol_err (fun hm => hE ((mem_cols_sumaStepV2 t (by decide)).mp hm))]
  · unfold load_data_v2
    rw [fillnaCol_ok ((mem_cols_sumaStepV2 t (by decide)).mpr hE)]
    show fillnaCol (mapCol (sumaStepV2 t) "ESTADO_AFILIADO" (fillCell (Cell.str "DESCONOCIDO")))
        "REGIONAL" (Cell.str "SIN ASIGNAR") = Except.error (PdErr.keyError "REGIONAL")
    apply fillnaCol_err
    rw [cols_mapCol ((mem_cols_sumaStepV2 t (by decide)).mpr hE)]
    exact fun hm => hR ((mem_cols_sumaStepV2 t (by decide)).mp hm)
  · obtain ⟨hE, hR, ht2⟩ := (load_data_v2_ok_iff t t₂).mp hok
    have hsum : sumaStepV2 t = setColByRow t "SUMA_CUOTAS_NUM" (fun _ => Cell.num 0) := by
      unfold sumaStepV2
      rw [if_neg hs]
    rw [hsum] at ht2
    rw [ht2]
    unfold totalRecaudoNum
    rw [qsum_eq]
    apply List.sum_eq_zero
    intro x hx
    rw [rows_mapCol, rows_mapCol, rows_setColByRow] at hx
    simp only [List.map_map, List.mem_map] at hx
    obtain ⟨r, _, hxe⟩ := hx
    rw [← hxe]
    simp only [Function.comp]
    rw [rowGet_rowSet_ne _ (by decide) _, rowGet_rowSet_ne _ (by decide) _,
      rowGet_rowSet_self]
    rfl

theorem regionalOf_newRowV2 (ced nom reg est : String) (cuota : Rat) :
    regionalOf (newRowV2 ced nom reg est cuota) = Cell.str reg := by
  unfold regionalOf newRowV2
  rw [rowGet_cons, if_neg (by decide), rowGet_cons, if_neg (by decide),
    rowGet_cons, if_pos rfl]

theorem num_newRowV2 (ced nom reg est : String) (cuota : Rat) :
    rowGet (newRowV2 ced nom reg est cuota) "SUMA_CUOTAS_NUM" = Cell.num cuota := by
  unfold newRowV2
  rw [rowGet_cons, if_neg (by decide), rowGet_cons, if_neg (by decide),
    rowGet_cons, if_neg (by decide), rowGet_cons, if_neg (by decide),
    rowGet_cons, if_pos rfl]

/-- C2 (counterexample): variant 1's form submission only signals success
("Simulado") and leaves the collection unchanged, so the per-regional
count for the chosen regional does not grow by one; the claim that both
variants append one record on submission is false. -/
theorem form_append_cex :
    submitV1 tExLoadedV1 "9" "Ana" "SUR" "ACTIVO" (mkRat 500 1) = tExLoadedV1 ∧
    regionalCount (submitV1 tExLoadedV1 "9" "Ana" "SUR" "ACTIVO" (mkRat 500 1)) "SUR"
      ≠ regionalCount tExLoadedV1 "SUR" + 1 :=
  ⟨rfl, by decide⟩

/-- C2 (amended): in variant 2 the new-affiliate form appends exactly one
record with the submitted field values, so the per-regional breakdown of
the chosen regional gains one member and `d` in dues while every other
regional's count and dues sum are unchanged; in variant 1 the form
signals success but appends nothing — the collection is left exactly as
it was. -/
theorem form_append (t : Table) (ced nom reg est : String) (cuota : Rat) :
    (submitV2 t ced nom reg est cuota).rows.length = t.rows.length + 1 ∧
    regionalCount (submitV2 t ced nom reg est cuota) reg = regionalCount t reg + 1 ∧
    recaudoByRegional (submitV2 t ced nom reg est cuota) (Cell.str reg)
      = recaudoByRegional t (Cell.str reg) + cuota ∧
    (∀ g : String, g ≠ reg →
      regionalCount (submitV2 t ced nom reg est cuota) g = regionalCount t g ∧
      recaudoByRegional (submitV2 t ced nom reg est cuota) (Cell.str g)
        = recaudoByRegional t (Cell.str g)) ∧
    submitV1 t ced nom reg est cuota = t := by
  have hrows : (submitV2 t ced nom reg est cuota).rows
      = t.rows ++ [newRowV2 ced nom reg est cuota] := rfl
  have hkeep : List.filter (fun r => decide (regionalOf r = Cell.str reg))
      [newRowV2 ced nom reg est cuota] = [newRowV2 ced nom reg est cuota] := by
    rw [List.filter_cons, if_pos (by simp [regionalOf_newRowV2])]
    rfl
  refine ⟨?_, ?_, ?_, fun g hg => ?_, rfl⟩
  · rw [hrows, List.length_append]
    rfl
  · unfold regionalCount countRows
    rw [hrows, List.filter_append, hkeep, List.length_append]
    rfl
  · unfold recaudoByRegional
    rw [hrows, List.filter_append, hkeep, List.map_append, qsum_eq, qsum_eq,
      List.sum_append, List.map_cons, num_newRowV2, List.map_nil]
    show _ + ((duesOf (Cell.num cuota)) + 0) = _ + cuota
    rw [add_zero]
    rfl
  · have hdrop : List.filter (fun r => decide (regionalOf r = Cell.str g))
        [newRowV2 ced nom reg est cuota] = [] := by
      rw [List.filter_cons,
        if_neg (by simp [regionalOf_newRowV2]; exact fun he => hg he.symm)]
      rfl
    constructor
    · unfold regionalCount countRows
      rw [hrows, List.filter_append, hdrop, List.append_nil]
    · unfold recaudoByRegional
      rw [hrows, List.filter_append, hdrop, List.append_nil]

/-- Witness for C2: appending a `SUR` record leaves the `NORTE` group's
count unchanged. -/
theorem form_append_witness :
    regionalCount (submitV2 tExLoadedV2 "9" "Ana" "SUR" "ACTIVO" (mkRat 500 1)) "NORTE"
      = regionalCount tExLoadedV2 "NORTE" :=
  ((form_append tExLoadedV2 "9" "Ana" "SUR" "ACTIVO" (mkRat 500 1)).2.2.2.1
    "NORTE" (by decide)).1

theorem strContains_empty (s : String) : strContains s "" = true :=
  hasSubCE_nil false s.data

theorem amendedSearchMatch_empty (r : Row) : amendedSearchMatch r "" = true := by
  unfold amendedSearchMatch
  rw [strContains_empty, Bool.or_true]

theorem dedup_single (i : Nat) : ([i] : List Nat).dedup = [i] := by
  rw [List.dedup_cons_of_not_mem (by simp), List.dedup_nil]

theorem matchEnds_seqLits (ci : Bool) (s : List Char) :
    ∀ (cs : List Char) (i : Nat),
      matchEnds ci s (seqLits cs) i =
        (if startsWithCE ci cs (s.drop i) then [i + cs.length] else []) := by
  intro cs
  induction cs with
  | nil =>
    intro i
    simp [seqLits, matchEnds, startsWithCE]
  | cons c cs ih =>
    intro i
    show (((matchEnds ci s (Regex.lit c) i).map
        (matchEnds ci s (seqLits cs))).flatten).dedup = _
    have hlit : matchEnds ci s (Regex.lit c) i =
        (match s.drop i with
         | d :: _ => if charEq ci c d then [i + 1] else []
         | [] => []) := rfl
    cases hd : s.drop i with
    | nil =>
      rw [hlit, hd]
      show ([] : List Nat) = _
      rw [if_neg (by rw [show startsWithCE ci (c :: cs) [] = false from rfl]; exact Bool.false_ne_true)]
    | cons d rest =>
      have hdrop : s.drop (i + 1) = rest := by
        have h1 : List.drop 1 (s.drop i) = s.drop (i + 1) := List.drop_drop 1 i s
        rw [hd] at h1
        exact h1.symm.trans rfl
      have hlit2 : matchEnds ci s (Regex.lit c) i
          = (if charEq ci c d then [i + 1] else []) := by
        rw [hlit, hd]
      rw [hlit2]
      rw [show startsWithCE ci (c :: cs) (d :: rest)
          = (charEq ci c d && startsWithCE ci cs rest) from rfl]
      by_cases hc : charEq ci c d = true
      · rw [if_pos hc, hc, Bool.true_and]
        rw [List.map_cons, List.map_nil, ih (i + 1), hdrop]
        by_cases hsw : startsWithCE ci cs rest = true
        · rw [if_pos hsw, if_pos hsw]
          show ([i + 1 + cs.length] : List Nat).dedup = [i + (c :: cs).length]
          rw [dedup_single]
          rw [show i + 1 + cs.length = i + (c :: cs).length from by
            rw [List.length_cons]; omega]
        · rw [if_neg hsw, if_neg hsw]
          rfl
      · rw [if_neg hc]
        have hceq : charEq ci c d = false := Bool.eq_false_iff.mpr hc
        rw [hceq, Bool.false_and]
        show ([] : List Nat) = _
        rw [if_neg Bool.false_ne_true]

theorem hasSubCE_eq_any (ci : Bool) (needle : List Char) :
    ∀ hay : List Char, hasSubCE ci needle hay =
      (List.range (hay.length + 1)).any
        (fun i => startsWithCE ci needle (hay.drop i)) := by
  intro hay
  induction hay with
  | nil =>
    show startsWithCE ci needle [] = _
    rw [show List.range (([] : List Char).length + 1) = [0] from by decide]
    rw [List.any_cons, List.any_nil, Bool.or_false]
    rfl
  | cons c rest ih =>
    show (startsWithCE ci needle (c :: rest) || hasSubCE ci needle rest) = _
    rw [show ((c :: rest).length + 1) = (rest.length + 1) + 1 from by
      rw [List.length_cons]]
    rw [List.range_succ_eq_map, List.any_cons, List.any_map, ih]
    rfl

theorem reSearch_seqLits (ci : Bool) (cs : List Char) (s : String) :
    reSearch ci (seqLits cs) s = hasSubCE ci cs s.data := by
  unfold reSearch
  rw [hasSubCE_eq_any]
  congr 1
  funext i
  rw [matchEnds_seqLits]
  by_cases h : startsWithCE ci cs (s.data.drop i) = true
  · rw [if_pos h, h]
    rfl
  · rw [if_neg h, Bool.eq_false_iff.mpr h]
    rfl

theorem isLitChar_facts {c : Char} (h : isLitChar c = true) :
    c ≠ '(' ∧ c ≠ ')' ∧ c ≠ '[' ∧ c ≠ ']' ∧ c ≠ '{' ∧ c ≠ '}' ∧ c ≠ '.' ∧ c ≠ '^'
      ∧ c ≠ '$' ∧ c ≠ '*' ∧ c ≠ '+' ∧ c ≠ '?' ∧ c ≠ '|' ∧ c ≠ '\\' := by
  unfold isLitChar at h
  simp only [List.mem_cons, List.not_mem_nil, or_false, Bool.not_eq_eq_eq_not,
    Bool.not_true, decide_eq_false_iff_not, not_or] at h
  exact ⟨h.1, h.2.1, h.2.2.1, h.2.2.2.1, h.2.2.2.2.1, h.2.2.2.2.2.1,
    h.2.2.2.2.2.2.1, h.2.2.2.2.2.2.2.1, h.2.2.2.2.2.2.2.2.1,
    h.2.2.2.2.2.2.2.2.2.1, h.2.2.2.2.2.2.2.2.2.2.1,
    h.2.2.2.2.2.2.2.2.2.2.2.1, h.2.2.2.2.2.2.2.2.2.2.2.2.1,
    h.2.2.2.2.2.2.2.2.2.2.2.2.2⟩

theorem parseF_atom_lit {c : Char} (h : isLitChar c = true) (fuel : Nat)
    (rest : List Char) :
    parseF (fuel + 1) PMode.patom (c :: rest) = some (Regex.lit c, rest) := by
  obtain ⟨h1, h2, h3, h4, h5, h6, h7, h8, h9, h10, h11, h12, h13, h14⟩ :=
    isLitChar_facts h
  simp only [parseF]
  rw [if_neg h1, if_neg h3, if_neg h14, if_neg h8, if_neg h9, if_neg h7,
    if_neg (by push_neg; exact ⟨h10, h11, h12⟩),
    if_neg (by push_neg; exact ⟨h2, h13⟩)]

theorem quantOf_of_lit : ∀ {cs : List Char}, (∀ c ∈ cs, isLitChar c = true) →
    quantOf cs = none := by
  intro cs h
  match cs with
  | [] => rfl
  | c :: rest =>
    obtain ⟨_, _, _, _, h5, _, _, _, _, h10, h11, h12, _, _⟩ :=
      isLitChar_facts (h c (List.mem_cons_self c rest))
    simp only [quantOf]
    rw [if_neg h10, if_neg h11, if_neg h12, if_neg h5]

theorem applyQuant_lit (a : Regex) {rest : List Char}
    (h : ∀ c ∈ rest, isLitChar c = true) : applyQuant a rest = some (a, rest) := by
  unfold applyQuant
  rw [quantOf_of_lit h]

theorem parseF_post_lit {c : Char} {rest : List Char} (hc : isLitChar c = true)
    (hrest : ∀ x ∈ rest, isLitChar x = true) :
    ∀ fuel, 2 ≤ fuel → parseF fuel PMode.ppost (c :: rest) = some (Regex.lit c, rest) := by
  intro fuel hf
  cases fuel with
  | zero => exact absurd hf (by omega)
  | succ f =>
    cases f with
    | zero => exact absurd hf (by omega)
    | succ f0 =>
      show (match parseF (f0 + 1) PMode.patom (c :: rest) with
            | none => none
            | some (a, r2) => applyQuant a r2) = some (Regex.lit c, rest)
      rw [parseF_atom_lit hc f0 rest]
      exact applyQuant_lit _ hrest

theorem parseF_cat_lit : ∀ (cs : List Char), (∀ x ∈ cs, isLitChar x = true) →
    ∀ fuel, cs.length + 2 ≤ fuel →
      parseF fuel PMode.pcat cs = some (seqLits cs, []) := by
  intro cs
  induction cs with
  | nil =>
    intro _ fuel hf
    cases fuel with
    | zero => exact absurd hf (by omega)
    | succ f => rfl
  | cons c cs ih =>
    intro hall fuel hf
    rw [List.length_cons] at hf
    cases fuel with
    | zero => exact absurd hf (by omega)
    | succ f =>
      obtain ⟨_, h2, _, _, _, _, _, _, _, _, _, _, h13, _⟩ :=
        isLitChar_facts (hall c (List.mem_cons_self c cs))
      have htail : ∀ x ∈ cs, isLitChar x = true :=
        fun x hx => hall x (List.mem_cons_of_mem c hx)
      show (if c = ')' ∨ c = '|' then some (Regex.emptyStr, c :: cs)
            else match parseF f PMode.ppost (c :: cs) with
              | none => none
              | some (r1, rest1) =>
                match parseF f PMode.pcat rest1 with
                | none => none
                | some (r2, rest2) => some (Regex.seq r1 r2, rest2))
          = some (seqLits (c :: cs), [])
      rw [if_neg (by push_neg; exact ⟨h2, h13⟩)]
      rw [parseF_post_lit (hall c (List.mem_cons_self c cs)) htail f (by omega)]
      show (match parseF f PMode.pcat cs with
            | none => none
            | some (r2, rest2) => some (Regex.seq (Regex.lit c) r2, rest2))
          = some (seqLits (c :: cs), [])
      rw [ih htail f (by omega)]
      rfl

theorem parseF_alt_lit (cs : List Char) (hall : ∀ x ∈ cs, isLitChar x = true)
    (fuel : Nat) (hf : cs.length + 3 ≤ fuel) :
    parseF fuel PMode.palt cs = some (seqLits cs, []) := by
  cases fuel with
  | zero => exact absurd hf (by omega)
  | succ f =>
    show (match parseF f PMode.pcat cs with
          | none => none
          | some (r1, rest) =>
            match rest with
            | '|' :: rest2 =>
              match parseF f PMode.palt rest2 with
              | none => none
              | some (r2, rest3) => some (Regex.alt r1 r2, rest3)
            | _ => some (r1, rest))
        = some (seqLits cs, [])
    rw [parseF_cat_lit cs hall f (by omega)]

theorem pyRegexParse_lit {q : String} (h : isLiteralPat q = true) :
    pyRegexParse q = some (seqLits q.data) := by
  unfold pyRegexParse
  rw [parseF_alt_lit q.data (List.all_eq_true.mp h) _ (by omega)]

theorem searchMask_seqLits (q : String) (r : Row) :
    searchMask (seqLits q.data) r = amendedSearchMatch r q := by
  unfold searchMask amendedSearchMatch
  cases rowGet r "APELLIDOS / NOMBRES" with
  | str s =>
    show (reSearch true (seqLits q.data) s
        || reSearch false (seqLits q.data) (cellAsPyStr (rowGet r "CEDULA")))
      = (strContainsCI s q || strContains (cellAsPyStr (rowGet r "CEDULA")) q)
    rw [reSearch_seqLits, reSearch_seqLits]
    rfl
  | num x =>
    show (false || reSearch false (seqLits q.data) (cellAsPyStr (rowGet r "CEDULA")))
      = (false || strContains (cellAsPyStr (rowGet r "CEDULA")) q)
    rw [reSearch_seqLits]
    rfl
  | na =>
    show (false || reSearch false (seqLits q.data) (cellAsPyStr (rowGet r "CEDULA")))
      = (false || strContains (cellAsPyStr (rowGet r "CEDULA")) q)
    rw [reSearch_seqLits]
    rfl

theorem searchMask_emptyStr (r : Row) : searchMask Regex.emptyStr r = true := by
  have hsearch : ∀ s : String, reSearch false Regex.emptyStr s = true := by
    intro s
    have := reSearch_seqLits false [] s
    rw [hasSubCE_nil] at this
    exact this
  unfold searchMask
  rw [hsearch]
  exact Bool.or_true _

/-- C5 (counterexample): the cedula half of the search is case-sensitive
(`.str.contains` with its default `case=True`): for the record with
cedula `"9A3"` and the query `"a3"`, the claimed case-insensitive
matching would return the record, but both variants return zero rows. -/
theorem search_filter_cex :
    claimSearchMatch [("CEDULA", Cell.str "9A3"),
      ("APELLIDOS / NOMBRES", Cell.str "Juan Perez")] "a3" = true ∧
    searchV1 tCed "a3" = Except.ok ⟨["CEDULA", "APELLIDOS / NOMBRES"], []⟩ ∧
    searchV2 tCed "a3" = Except.ok ⟨["CEDULA", "APELLIDOS / NOMBRES"], []⟩ :=
  ⟨rfl, rfl, rfl⟩

/-- C5 (amended): pandas interprets the query as a regular expression
(`regex=True` default), so for every query free of regex metacharacters —
where regex matching is literal — both variants return exactly the
records whose name contains the query as a case-insensitive substring OR
whose cedula, rendered as text, contains it as a case-sensitive
substring; an empty query returns all rows, a metacharacter-free query
matching no record returns zero rows, and a query that is not a valid
regular expression makes the filter raise `re.error` (variant 2 is saved
from that only by its empty-query guard). -/
theorem search_filter (t : Table) (q : String) :
    (isLiteralPat q = true →
      searchV1 t q =
        Except.ok { t with rows := t.rows.filter (fun r => amendedSearchMatch r q) } ∧
      searchV2 t q =
        Except.ok { t with rows := t.rows.filter (fun r => amendedSearchMatch r q) }) ∧
    (isLiteralPat q = true → (∀ r ∈ t.rows, amendedSearchMatch r q = false) →
      searchV1 t q = Except.ok ⟨t.cols, []⟩ ∧ searchV2 t q = Except.ok ⟨t.cols, []⟩) ∧
    searchV1 t "" = Except.ok t ∧
    searchV2 t "" = Except.ok t ∧
    (pyRegexParse q = none →
      searchV1 t q = Except.error PdErr.reError ∧
      (q.isEmpty = false → searchV2 t q = Except.error PdErr.reError)) := by
  have hfun : (fun r => searchMask (seqLits q.data) r)
      = (fun r => amendedSearchMatch r q) :=
    funext (fun r => searchMask_seqLits q r)
  have hV1 : isLiteralPat q = true → searchV1 t q =
      Except.ok { t with rows := t.rows.filter (fun r => amendedSearchMatch r q) } := by
    intro h
    unfold searchV1
    rw [pyRegexParse_lit h]
    show Except.ok { t with rows := t.rows.filter (fun r => searchMask (seqLits q.data) r) } = _
    rw [hfun]
  have hV2 : isLiteralPat q = true → searchV2 t q =
      Except.ok { t with rows := t.rows.filter (fun r => amendedSearchMatch r q) } := by
    intro h
    unfold searchV2
    by_cases hq : q.isEmpty
    · rw [if_pos hq]
      have hq' : q = "" := (String.isEmpty_iff q).mp hq
      subst hq'
      rw [List.filter_eq_self.mpr (fun r _ => amendedSearchMatch_empty r)]
    · rw [if_neg hq, pyRegexParse_lit h]
      show Except.ok { t with rows := t.rows.filter (fun r => searchMask (seqLits q.data) r) } = _
      rw [hfun]
  have hV1empty : searchV1 t "" = Except.ok t := by
    unfold searchV1
    rw [show pyRegexParse "" = some Regex.emptyStr from rfl]
    show Except.ok { t with rows := t.rows.filter (fun r => searchMask Regex.emptyStr r) } = _
    rw [List.filter_eq_self.mpr (fun r _ => searchMask_emptyStr r)]
  refine ⟨fun h => ⟨hV1 h, hV2 h⟩, fun h hnone => ?_, hV1empty, rfl, fun hbad => ?_⟩
  · have hnil : t.rows.filter (fun r => amendedSearchMatch r q) = [] :=
      List.filter_eq_nil_iff.mpr
        (fun r hr => by rw [hnone r hr]; exact Bool.false_ne_true)
    constructor
    · rw [hV1 h, hnil]
    · rw [hV2 h, hnil]
  · constructor
    · unfold searchV1
      rw [hbad]
    · intro hq
      unfold searchV2
      rw [if_neg (by rw [hq]; exact Bool.false_ne_true), hbad]

/-- Witness for C5: the literal query `"zz"` matches no record of the
sample table, so both variants return zero rows. -/
theorem search_filter_witness :
    searchV1 tCed "zz" = Except.ok ⟨tCed.cols, []⟩ ∧
    searchV2 tCed "zz" = Except.ok ⟨tCed.cols, []⟩ :=
  (search_filter tCed "zz").2.1 (by decide) (by decide)

theorem fillCell_ne_na {d : Cell} (hd : d ≠ Cell.na) (v : Cell) :
    fillCell d v ≠ Cell.na := by
  unfold fillCell
  by_cases hv : v = Cell.na
  · rw [if_pos hv]; exact hd
  · rw [if_neg hv]; exact hv

theorem cleanRowsV1_shape : ∀ {rows rs : List Row}, cleanRowsV1 rows = Except.ok rs →
    ∀ r' ∈ rs, ∃ r ∈ rows, ∃ v, r' = rowSet r "SUMA_CUOTAS_NUM" v := by
  intro rows
  induction rows with
  | nil =>
    intro rs h r' hr'
    have hrs : ([] : List Row) = rs := (Except.ok.injEq _ _).mp h
    rw [← hrs] at hr'
    cases hr'
  | cons r rest ih =>
    intro rs h r' hr'
    unfold cleanRowsV1 at h
    cases hc : cleanCellV1 (rowGet r "SUMA_CUOTAS") with
    | error e => rw [hc] at h; cases h
    | ok v =>
      rw [hc] at h
      cases hrest : cleanRowsV1 rest with
      | error e => rw [hrest] at h; cases h
      | ok rs' =>
        rw [hrest] at h
        have hrs : rowSet r "SUMA_CUOTAS_NUM" v :: rs' = rs := (Except.ok.injEq _ _).mp h
        rw [← hrs] at hr'
        rcases List.mem_cons.mp hr' with h1 | h1
        · exact ⟨r, List.mem_cons_self r rest, v, h1⟩
        · obtain ⟨rr, hrr, vv, hvv⟩ := ih hrest r' h1
          exact ⟨rr, List.mem_cons_of_mem _ hrr, vv, hvv⟩

theorem sumaStepV1_estado {t t' : Table} (h : sumaStepV1 t = Except.ok t') :
    ∀ r' ∈ t'.rows, ∃ r ∈ t.rows,
      rowGet r' "ESTADO_AFILIADO" = rowGet r "ESTADO_AFILIADO" := by
  unfold sumaStepV1 at h
  by_cases hs : "SUMA_CUOTAS" ∈ t.cols
  · rw [if_pos hs] at h
    cases hcr : cleanRowsV1 t.rows with
    | error e => rw [hcr] at h; cases h
    | ok rs =>
      rw [hcr] at h
      have ht' : t' = { cols := if "SUMA_CUOTAS_NUM" ∈ t.cols then t.cols
                                else t.cols ++ ["SUMA_CUOTAS_NUM"], rows := rs } :=
        ((Except.ok.injEq _ _).mp h).symm
      intro r' hr'
      rw [ht'] at hr'
      obtain ⟨r, hr, v, hv⟩ := cleanRowsV1_shape hcr r' hr'
      exact ⟨r, hr, by rw [hv, rowGet_rowSet_ne _ (by decide) _]⟩
  · rw [if_neg hs] at h
    intro r' hr'
    rw [← (Except.ok.injEq _ _).mp h] at hr'
    exact ⟨r', hr', rfl⟩

/-- C4 (counterexample): variant 2's `load_data` does not case-normalise
the stored status: loading the sample record with status `"activo"`
keeps it lower-case, so not every stored status is an uppercase value. -/
theorem status_normalisation_cex :
    rowGet (tExLoadedV2.rows.headI) "ESTADO_AFILIADO" = Cell.str "activo" ∧
    pyUpper "activo" ≠ "activo" :=
  ⟨rfl, by decide⟩

/-- C4 (amended): after variant 1's loader (status column present, its
cells strings or missing), every stored status is a string fixed under
uppercasing — missing entries become the sentinel `"DESCONOCIDO"` and the
rest are uppercased — while variant 2's loader only fills missing
statuses with the sentinel, leaving them non-missing but with their input
casing. -/
theorem status_normalisation (t t₁ t₂ : Table) :
    (load_data_v2 t = Except.ok t₂ →
      ∀ r ∈ t₂.rows, rowGet r "ESTADO_AFILIADO" ≠ Cell.na) ∧
    ("ESTADO_AFILIADO" ∈ t.cols →
      (∀ r ∈ t.rows, isStrOrNa (rowGet r "ESTADO_AFILIADO") = true) →
      load_data_v1_inner t = Except.ok t₁ →
      ∀ r ∈ t₁.rows, ∃ s, rowGet r "ESTADO_AFILIADO" = Cell.str s ∧ pyUpper s = s) := by
  constructor
  · intro hok r hr
    obtain ⟨hE, hR, ht2⟩ := (load_data_v2_ok_iff t t₂).mp hok
    rw [ht2, rows_mapCol] at hr
    obtain ⟨r₁, hr₁, hre⟩ := List.mem_map.mp hr
    rw [← hre, rowGet_rowSet_ne _ (by decide) _]
    rw [rows_mapCol] at hr₁
    obtain ⟨r₀, hr₀, hre₁⟩ := List.mem_map.mp hr₁
    rw [← hre₁, rowGet_rowSet_self]
    exact fillCell_ne_na (by decide) _
  · intro hE hstat hload r hr
    obtain ⟨t', hsuma, ht₁⟩ := load_data_v1_inner_ok hload
    have hE' : "ESTADO_AFILIADO" ∈ t'.cols := sumaStepV1_mem_cols hsuma hE
    have ht₁' : t₁ = mapCol t' "ESTADO_AFILIADO" fillUpperV1 := by
      rw [ht₁]
      unfold estadoStepV1
      rw [if_pos hE']
    rw [ht₁', rows_mapCol] at hr
    obtain ⟨r', hr', hre⟩ := List.mem_map.mp hr
    rw [← hre, rowGet_rowSet_self]
    obtain ⟨r₀, hr₀, hcell⟩ := sumaStepV1_estado hsuma r' hr'
    rw [hcell]
    have := hstat r₀ hr₀
    cases hcv : rowGet r₀ "ESTADO_AFILIADO" with
    | na => exact ⟨"DESCONOCIDO", rfl, by decide⟩
    | str s => exact ⟨pyUpper s, rfl, pyUpper_idem s⟩
    | num q =>
      rw [hcv] at this
      cases this

/-- Witness for C4 on the loaded sample record (whose raw status is the
string `"activo"`): variant 1 stores a string fixed under uppercasing. -/
theorem status_normalisation_witness :
    ∃ s, rowGet (tExLoadedV1.rows.headI) "ESTADO_AFILIADO" = Cell.str s ∧
      pyUpper s = s :=
  (status_normalisation tEx tExLoadedV1 tExLoadedV2).2 (by decide) (by decide) rfl
    (tExLoadedV1.rows.headI) (by decide)

/-- C6 (counterexample): in variant 1 a record with an absent regional
value keeps `NaN` there (the loader never touches `REGIONAL`), and
`groupby` drops it: for the loaded one-record table with dues `$100.00`
the per-regional sums add up to `0` while the global total is `100`. -/
theorem regional_sum_cex :
    sumRecaudoGroups (load_data_v1 (some tRegNa)).1 = mkRat 0 1 ∧
    totalRecaudoNum (load_data_v1 (some tRegNa)).1 = mkRat 100 1 ∧
    (mkRat 0 1 : Rat) ≠ mkRat 100 1 :=
  ⟨by decide, by decide, by decide⟩

/-- C6 (amended): the per-regional dues sums add up to the global
collected total for every table in which each record carries a regional
value — in particular for every table loaded by variant 2, whose loader
fills absent regionals with `"SIN ASIGNAR"`; records with an absent
regional (possible in variant 1) are dropped by the grouping. -/
theorem regional_sum (t t₂ : Table) :
    ((∀ r ∈ t.rows, regionalOf r ≠ Cell.na) →
      sumRecaudoGroups t = totalRecaudoNum t) ∧
    (load_data_v2 t = Except.ok t₂ → sumRecaudoGroups t₂ = totalRecaudoNum t₂) := by
  have main : ∀ u : Table, (∀ r ∈ u.rows, regionalOf r ≠ Cell.na) →
      sumRecaudoGroups u = totalRecaudoNum u := by
    intro u hna
    unfold sumRecaudoGroups totalRecaudoNum
    rw [qsum_eq, qsum_eq]
    have hinner : (regionalKeys u).map (fun g => recaudoByRegional u g)
        = (regionalKeys u).map (fun g =>
            ((u.rows.filter (fun x => decide (regionalOf x = g))).map
              (fun r => duesOf (rowGet r "SUMA_CUOTAS_NUM"))).sum) := by
      apply List.map_congr_left
      intro g _
      unfold recaudoByRegional
      rw [qsum_eq]
    rw [hinner]
    apply sum_groups regionalOf _ u.rows (regionalKeys u) (List.nodup_dedup _)
    intro r hr
    unfold regionalKeys
    exact List.mem_dedup.mpr (List.mem_filter.mpr
      ⟨List.mem_map_of_mem _ hr, decide_eq_true (hna r hr)⟩)
  refine ⟨main t, fun hok => ?_⟩
  apply main
  obtain ⟨hE, hR, ht2⟩ := (load_data_v2_ok_iff t t₂).mp hok
  intro r hr
  rw [ht2, rows_mapCol] at hr
  obtain ⟨r₁, hr₁, hre⟩ := List.mem_map.mp hr
  rw [← hre]
  unfold regionalOf
  rw [rowGet_rowSet_self]
  exact fillCell_ne_na (by decide) _

/-- Witness for C6 on the loaded sample table (every record carries a
regional value). -/
theorem regional_sum_witness :
    sumRecaudoGroups tExLoadedV2 = totalRecaudoNum tExLoadedV2 :=
  (regional_sum tEx tExLoadedV2).2 rfl

theorem fillUpper_cmp (x : Cell) (S : String) :
    decide (fillUpperV1 x = Cell.str S) = upperEqB (fillUpperV1 x) S := by
  cases x with
  | na =>
    show decide (Cell.str "DESCONOCIDO" = Cell.str S)
        = decide (pyUpper "DESCONOCIDO" = S)
    rw [show pyUpper "DESCONOCIDO" = "DESCONOCIDO" from by decide]
    exact decide_eq_decide.mpr ⟨fun h => Cell.str.inj h, fun h => by rw [h]⟩
  | str s =>
    show decide (Cell.str (pyUpper s) = Cell.str S)
        = decide (pyUpper (pyUpper s) = S)
    rw [pyUpper_idem]
    exact decide_eq_decide.mpr ⟨fun h => Cell.str.inj h, fun h => by rw [h]⟩
  | num q =>
    show decide (Cell.na = Cell.str S) = false
    exact decide_eq_false (fun h => Cell.noConfusion h)

/-- C8: for every loaded table the dashboard KPIs of both variants are
exactly the specification's four values: the record count, the count of
records whose uppercased status is `"ACTIVO"`, the count with
`"RETIRADO"`, and the dues-column sum (`0` when the numeric column is
absent, which cannot happen after variant 2's loader).  Variant 1
compares the stored status against the literal uppercase values, which
coincides with the normalized count because its loader uppercased the
column. -/
theorem dashboard_kpis (t t₁ t₂ : Table) :
    ("ESTADO_AFILIADO" ∈ t.cols → load_data_v1_inner t = Except.ok t₁ →
      kpisV1 t₁ = Except.ok (specKpis t₁)) ∧
    (load_data_v2 t = Except.ok t₂ → kpisV2 t₂ = Except.ok (specKpis t₂)) := by
  constructor
  · intro hE hload
    obtain ⟨t', hsuma, ht₁⟩ := load_data_v1_inner_ok hload
    have hE' : "ESTADO_AFILIADO" ∈ t'.cols := sumaStepV1_mem_cols hsuma hE
    have ht₁' : t₁ = mapCol t' "ESTADO_AFILIADO" fillUpperV1 := by
      rw [ht₁]
      unfold estadoStepV1
      rw [if_pos hE']
    have hEt₁ : "ESTADO_AFILIADO" ∈ t₁.cols := by
      rw [ht₁', cols_mapCol hE']
      exact hE'
    have hcount : ∀ S : String,
        countRows t₁ (fun r => decide (rowGet r "ESTADO_AFILIADO" = Cell.str S))
          = countRows t₁ (fun r => upperEqB (rowGet r "ESTADO_AFILIADO") S) := by
      intro S
      unfold countRows
      congr 1
      apply List.filter_congr
      intro r hr
      rw [ht₁', rows_mapCol] at hr
      obtain ⟨r', hr', hre⟩ := List.mem_map.mp hr
      rw [← hre, rowGet_rowSet_self]
      exact fillUpper_cmp _ S
    unfold kpisV1
    rw [if_pos hEt₁]
    unfold specKpis specActiveCount specRetiredCount specTotalCollected
    rw [hcount "ACTIVO", hcount "RETIRADO"]
  · intro hok
    obtain ⟨hE, hR, ht2⟩ := (load_data_v2_ok_iff t t₂).mp hok
    have hEs : "ESTADO_AFILIADO" ∈ (sumaStepV2 t).cols :=
      (mem_cols_sumaStepV2 t (by decide)).mpr hE
    have hRs : "REGIONAL" ∈ (sumaStepV2 t).cols :=
      (mem_cols_sumaStepV2 t (by decide)).mpr hR
    have hcols : t₂.cols = (sumaStepV2 t).cols := by
      rw [ht2, cols_mapCol (by rw [cols_mapCol hEs]; exact hRs), cols_mapCol hEs]
    have hEt : "ESTADO_AFILIADO" ∈ t₂.cols := by
      rw [hcols]; exact hEs
    have hNt : "SUMA_CUOTAS_NUM" ∈ t₂.cols := by
      rw [hcols]; exact num_mem_cols_sumaStepV2 t
    unfold kpisV2
    rw [if_pos hEt, if_pos hNt]
    unfold specKpis specActiveCount specRetiredCount specTotalCollected
    rw [if_pos hNt]

/-- Witness for C8: the KPI tuples computed by both variants on the
loaded sample table equal the specification's values. -/
theorem dashboard_kpis_witness :
    kpisV1 tExLoadedV1 = Except.ok (specKpis tExLoadedV1) ∧
    kpisV2 tExLoadedV2 = Except.ok (specKpis tExLoadedV2) :=
  ⟨(dashboard_kpis tEx tExLoadedV1 tExLoadedV2).1 (by decide) rfl,
   (dashboard_kpis tEx tExLoadedV1 tExLoadedV2).2 rfl⟩

/-- Witness for C7: variant 1's loader is the identity on the one-column
table lacking every dues- and status-related column. -/
theorem missing_columns_witness :
    load_data_v1_inner tBare = Except.ok tBare :=
  (missing_columns tBare tBare (0, 0, 0, 0)).1 (by decide) (by decide)

/-- Witness for C10 at the sample source: the Dashboard run raises no
`ZeroDivisionError`. -/
theorem dashboard_no_zero_division_witness :
    scriptV1 (some tEx) ≠ Except.error PdErr.zeroDiv :=
  dashboard_no_zero_division (some tEx)
